import Mathlib

/-!
# SweetApp: the sweet inventory controllers

A shallow embedding of `backend/controllers/sweetController.js`,
`backend/models/Sweet.js`, `backend/routes/sweets.js` and `backend/seed.js`, and of the
filter and the purchase button of the frontend (`pages/Dashboard.js`,
`components/SweetCard.js`).

Conventions of the embedding:

* JavaScript numbers are rationals (`ℚ`); `NaN` is a separate value.  The results of `+`
  and `-` are rounded to the nearest double (`roundDouble`: 53 significant bits, ties to
  even, subnormals).  `Infinity` is not a value of the model: the results of `+` and `-`
  are those of JavaScript when they stay below `2 ^ 1024` in absolute value, and the
  statements about such results assume so (`IsDouble`).
* Body fields are JSON scalars or absent (`JsVal`); arrays and nested objects as field
  values are outside the model.
* Conversions between strings and numbers that JavaScript and validator.js perform on
  string values are taken as parameters (`JsEnv`): every theorem holds for any choice of
  them.
* The collection is a list of documents; the handlers are state-passing functions that
  return the HTTP response together with the new collection.
* Regular expressions of the name search are modelled for patterns of literal characters
  and dots; what other patterns match is a parameter.  The case mappings of Unicode
  (`toLowerCase`, and the case folding of the regular-expression engine) are parameters
  as well.
-/

namespace SweetApp

/-! ## JavaScript values -/

/-- A scalar JavaScript value: what `req.body.<field>` may hold, and what arithmetic on
it produces. -/
inductive JsVal where
  | undefined
  | null
  | bool (b : Bool)
  | num (x : ℚ)
  | nan
  | str (s : String)
deriving DecidableEq

/-- String conversions of the JavaScript runtime and of validator.js. -/
structure JsEnv where
  /-- The conversion `Number(s)` of a string; `none` is `NaN`. -/
  strToNum : String → Option ℚ
  /-- The conversion `String(x)` of a number. -/
  numToStr : ℚ → String
  /-- The method `s.trim()`. -/
  trim : String → String
  /-- The check `isFloat` of validator.js: the parsed value when `s` has the float shape. -/
  floatLit : String → Option ℚ
  /-- The check `isInt` of validator.js: the parsed value when `s` has the integer shape. -/
  intLit : String → Option ℤ
  /-- The function `parseFloat(s)`; `none` is `NaN`. -/
  parseFloat : String → Option ℚ
  /-- The method `s.toLowerCase()`. -/
  toLowerCase : String → String
  /-- The case folding of the regular-expression engine of the database: under option `i`
  a literal character of the pattern matches the characters with the same folding. -/
  regexFold : Char → Char
  /-- The regular-expression engine of the database, with option `i`, on patterns that
  use constructs other than literal characters and `.`: `none` when the pattern does not
  compile, otherwise the test "some part of the subject matches". -/
  regex : String → Option (String → Bool)

/-- Strip the white space at both ends of a list of characters. -/
def trimChars (l : List Char) : List Char :=
  ((l.dropWhile Char.isWhitespace).reverse.dropWhile Char.isWhitespace).reverse

/-- The value of a non-empty list of decimal digits. -/
def digitsValue (l : List Char) : Option Nat :=
  if l ≠ [] ∧ l.all Char.isDigit then
    some (l.foldl (fun acc c => 10 * acc + (c.toNat - 48)) 0)
  else none

/-- A simple environment for evaluating the model on concrete requests: decimal integer
strings only, the letter case of the ASCII letters, and no regular expressions beyond the
modelled ones. -/
def sampleEnv : JsEnv where
  strToNum s := (String.toInt? (String.trim s)).map (fun z => (z : ℚ))
  numToStr x := toString x
  trim s := String.mk (trimChars s.toList)
  floatLit s := (String.toInt? s).map (fun z => (z : ℚ))
  intLit s := String.toInt? s
  parseFloat s := (digitsValue s.toList).map (fun n => (n : ℚ))
  toLowerCase s := String.mk (s.toList.map Char.toLower)
  regexFold c := c.toLower
  regex _ := none

/-- JavaScript truthiness (`ToBoolean`). -/
def truthy : JsVal → Bool
  | .undefined => false
  | .null => false
  | .bool b => b
  | .num x => decide (x ≠ 0)
  | .nan => false
  | .str s => decide (s ≠ "")

/-- The expression `a || b`. -/
def jsOr (a b : JsVal) : JsVal :=
  if truthy a then a else b

/-- JavaScript `ToNumber`; `none` is `NaN`. -/
def toNumber (env : JsEnv) : JsVal → Option ℚ
  | .undefined => none
  | .null => some 0
  | .bool b => some (if b then 1 else 0)
  | .num x => some x
  | .nan => none
  | .str s => env.strToNum s

/-- JavaScript `ToString`, as used by template literals and by `+` with a string
operand. -/
def toStr (env : JsEnv) : JsVal → String
  | .undefined => "undefined"
  | .null => "null"
  | .bool b => if b then "true" else "false"
  | .num x => env.numToStr x
  | .nan => "NaN"
  | .str s => s

/-- The comparison `a < b` when at least one operand is not a string: both operands are
converted with `ToNumber`, and a `NaN` on either side makes the comparison false. -/
def numLt : Option ℚ → Option ℚ → Bool
  | some x, some y => decide (x < y)
  | _, _ => false

/-- Round a rational to the nearest integer, a tie to the even one. -/
def roundHalfEven (m : ℚ) : ℤ :=
  let f := ⌊m⌋
  if m - f < 1 / 2 then f
  else if 1 / 2 < m - f then f + 1
  else if f % 2 = 0 then f else f + 1

/-- Round a non-negative rational to the nearest double: the spacing of the doubles around
`a` is `2 ^ q` with `q = max (⌊log₂ a⌋ - 52) (-1074)`. -/
def roundPos (a : ℚ) : ℚ :=
  if a = 0 then 0
  else
    let q : ℤ := max (Int.log 2 a - 52) (-1074)
    (roundHalfEven (a / 2 ^ q) : ℚ) * 2 ^ q

/-- The double nearest to the exact result of an arithmetic operation (round to nearest,
ties to even). -/
def roundDouble (x : ℚ) : ℚ :=
  if x < 0 then -roundPos (-x) else roundPos x

/-- The expression `a - b`, for a result that does not overflow. -/
def jsSub (env : JsEnv) (a b : JsVal) : JsVal :=
  match toNumber env a, toNumber env b with
  | some x, some y => .num (roundDouble (x - y))
  | _, _ => .nan

/-- The expression `a + b`: concatenation when an operand is a string, numeric addition
otherwise (for a result that does not overflow). -/
def jsAdd (env : JsEnv) (a b : JsVal) : JsVal :=
  match a, b with
  | .str s, _ => .str (s ++ toStr env b)
  | _, .str s => .str (toStr env a ++ s)
  | _, _ =>
    match toNumber env a, toNumber env b with
    | some x, some y => .num (roundDouble (x + y))
    | _, _ => .nan

/-! ## The Sweet model (`models/Sweet.js`) -/

/-- A stored Sweet document.  `description` and `image` are not required, so they may
hold `null` (`none`). -/
structure Sweet where
  _id : Nat
  name : String
  category : String
  price : ℚ
  quantity : ℚ
  description : Option String
  image : Option String
  createdBy : Nat
  createdAt : Nat
  updatedAt : Nat
deriving DecidableEq

/-- The collection of stored sweets. -/
abbrev Store := List Sweet

/-- The `enum` of `sweetSchema.category`. -/
def categoryEnum : List String :=
  ["Chocolate", "Candy", "Gummy", "Lollipop", "Cake", "Cookie", "Other"]

/-- The default of `sweetSchema.image`. -/
def defaultImage : String := "https://via.placeholder.com/300x200?text=Sweet"

/-- Errors raised by the model layer. -/
inductive DbError where
  /-- A `CastError`: a value cannot be converted to the type of its path. -/
  | cast
  /-- A `ValidationError`: a schema validator rejected the document or update. -/
  | validation (msg : String)
  /-- The unique index on `name` rejected the write (`error.code === 11000`). -/
  | duplicateKey
  /-- The database rejected a query, as for a regular expression that does not compile. -/
  | query
deriving DecidableEq

/-- The `code` property of an error: only the duplicate-key error carries one. -/
def DbError.code : DbError → Option Nat
  | .duplicateKey => some 11000
  | _ => none

/-- The `message` property of an error. -/
def DbError.message : DbError → String
  | .cast => "Cast failed"
  | .validation msg => "Sweet validation failed: " ++ msg
  | .duplicateKey => "E11000 duplicate key error"
  | .query => "Regular expression is invalid"

/-- Mongoose's cast of a value assigned to a `Number` path: `null` and `undefined` stay
(`some none`), the empty string becomes `null`, strings and booleans go through
`Number(..)`, and `NaN` is a cast error (`none`). -/
def castNumber (env : JsEnv) : JsVal → Option (Option ℚ)
  | .undefined => some none
  | .null => some none
  | .bool b => some (some (if b then 1 else 0))
  | .num x => some (some x)
  | .nan => none
  | .str s =>
    if s = "" then some none
    else match env.strToNum s with
      | some x => some (some x)
      | none => none

/-- Mongoose's cast of a value assigned to a `String` path (`none` is `null`); scalars
never fail to cast. -/
def castString (env : JsEnv) : JsVal → Option String
  | .undefined => none
  | .null => none
  | v => some (toStr env v)

/-- The schema validators of one `Number` path with `required` and `min: 0`. -/
def validateNumber (label : String) : Option ℚ → Except DbError ℚ
  | none => .error (.validation ("Please provide " ++ label))
  | some x => if 0 ≤ x then .ok x else .error (.validation (label ++ " cannot be negative"))

/-- The validators of `name`: required, so a non-empty string. -/
def validateName : Option String → Except DbError String
  | none => .error (.validation "Please provide a sweet name")
  | some s => if s = "" then .error (.validation "Please provide a sweet name") else .ok s

/-- The validators of `category`: required and a member of the enum. -/
def validateCategory : Option String → Except DbError String
  | none => .error (.validation "Please provide a category")
  | some s =>
    if s = "" then .error (.validation "Please provide a category")
    else if s ∈ categoryEnum then .ok s
    else .error (.validation "not a valid enum value for path category")

/-- Document validation as run by `save()`: every path of the document is checked against
the schema. -/
def validateDoc (s : Sweet) : Except DbError Unit := do
  let _ ← validateName (some s.name)
  let _ ← validateCategory (some s.category)
  let _ ← validateNumber "price" (some s.price)
  let _ ← validateNumber "quantity" (some s.quantity)
  pure ()

/-- The call `Sweet.findById(id)`: the first document with that `_id`. -/
def findById (st : Store) (id : Nat) : Option Sweet :=
  st.find? (fun s => s._id = id)

/-- Overwrite the first document whose `_id` is that of `doc`. -/
def replaceDoc (doc : Sweet) : Store → Store
  | [] => []
  | s :: rest => if s._id = doc._id then doc :: rest else s :: replaceDoc doc rest

/-- Remove the first document with the given `_id` (`doc.deleteOne()`). -/
def removeDoc (id : Nat) : Store → Store
  | [] => []
  | s :: rest => if s._id = id then rest else s :: removeDoc id rest

/-- The assignment `sweet.quantity = v` followed by `await sweet.save()`: the value is
cast to a number (a failed cast surfaces as a validation error on save), the document is
validated, the `pre('save')` hook stamps `updatedAt`, and the document is written. -/
def saveQuantity (env : JsEnv) (st : Store) (sweet : Sweet) (v : JsVal) (now : Nat) :
    Except DbError (Sweet × Store) :=
  match castNumber env v with
  | none => .error (.validation "Cast to Number failed for path quantity")
  | some none => .error (.validation "Please provide quantity")
  | some (some x) =>
    let doc := { sweet with quantity := x }
    match validateDoc doc with
    | .error e => .error e
    | .ok _ =>
      let saved := { doc with updatedAt := now }
      .ok (saved, replaceDoc saved st)

/-- A fresh `_id` for a new document. -/
def freshId (st : Store) : Nat :=
  (st.map (fun s => s._id)).foldr max 0 + 1

/-- The call `Sweet.create({ name, category, price, quantity, description, image,
createdBy })`: schema defaults replace `undefined` fields, values are cast (`name` is
trimmed), the document is validated, and the insert is subject to the unique index on
`name`. -/
def createDoc (env : JsEnv) (st : Store) (name category price quantity description
    image : JsVal) (createdBy now : Nat) : Except DbError (Sweet × Store) :=
  match castNumber env price,
      castNumber env (if quantity = .undefined then .num 0 else quantity) with
  | none, _ => .error (.validation "Cast to Number failed for path price")
  | _, none => .error (.validation "Cast to Number failed for path quantity")
  | some p, some q => do
    let name ← validateName ((castString env name).map env.trim)
    let category ← validateCategory
      (castString env (if category = .undefined then .str "Other" else category))
    let price ← validateNumber "price" p
    let quantity ← validateNumber "quantity" q
    let doc : Sweet :=
      { _id := freshId st, name := name, category := category, price := price,
        quantity := quantity,
        description := castString env (if description = .undefined then .str "" else description),
        image := castString env (if image = .undefined then .str defaultImage else image),
        createdBy := createdBy, createdAt := now, updatedAt := now }
    if st.any (fun s => s.name = name) then .error .duplicateKey
    else .ok (doc, st ++ [doc])

/-- The `$set` document of an update after casting: for each path, `none` when the field
was `undefined` (the path is left out of the update), otherwise the cast value, where an
inner `none` is `null`. -/
structure Update where
  name : Option (Option String)
  category : Option (Option String)
  price : Option (Option ℚ)
  quantity : Option (Option ℚ)
  description : Option (Option String)
  image : Option (Option String)

/-- Cast one field of an update to a `String` path. -/
def castStringField (env : JsEnv) (v : JsVal) : Option (Option String) :=
  if v = .undefined then none else some (castString env v)

/-- Cast one field of an update to a `Number` path. -/
def castNumberField (env : JsEnv) (v : JsVal) : Except DbError (Option (Option ℚ)) :=
  if v = .undefined then .ok none
  else match castNumber env v with
    | none => .error .cast
    | some x => .ok (some x)

/-- Casting of the update `{ name, category, price, quantity, description, image }`. -/
def castUpdate (env : JsEnv) (name category price quantity description image : JsVal) :
    Except DbError Update := do
  let p ← castNumberField env price
  let q ← castNumberField env quantity
  pure { name := (castStringField env name).map (fun v => v.map env.trim),
         category := castStringField env category,
         price := p, quantity := q,
         description := castStringField env description,
         image := castStringField env image }

/-- Run the validators of a path on an update: nothing to check when the update does not
set the path. -/
def validateField {α β : Type} (validators : α → Except DbError β) :
    Option α → Except DbError Unit
  | none => .ok ()
  | some v =>
    match validators v with
    | .error e => .error e
    | .ok _ => .ok ()

/-- Update validators (`runValidators: true`): the schema validators of every path that the
update sets. -/
def validateUpdate (u : Update) : Except DbError Unit := do
  validateField validateName u.name
  validateField validateCategory u.category
  validateField (validateNumber "price") u.price
  validateField (validateNumber "quantity") u.quantity

/-- The document after the `$set` of an update. -/
def applyUpdate (u : Update) (s : Sweet) : Sweet :=
  { s with
    name := match u.name with
      | some (some v) => v
      | _ => s.name
    category := match u.category with
      | some (some v) => v
      | _ => s.category
    price := match u.price with
      | some (some v) => v
      | _ => s.price
    quantity := match u.quantity with
      | some (some v) => v
      | _ => s.quantity
    description := match u.description with
      | some v => v
      | none => s.description
    image := match u.image with
      | some v => v
      | none => s.image }

/-- The call `Sweet.findByIdAndUpdate(id, { name, category, price, quantity, description,
image }, { new: true, runValidators: true })`: returns the updated document (`null` when
no document has that id). -/
def findByIdAndUpdate (env : JsEnv) (st : Store) (id : Nat) (name category price quantity
    description image : JsVal) : Except DbError (Option Sweet × Store) := do
  let u ← castUpdate env name category price quantity description image
  validateUpdate u
  match findById st id with
  | none => pure (none, st)
  | some s =>
    let doc := applyUpdate u s
    if (removeDoc id st).any (fun o => o.name = doc.name) ∧ doc.name ≠ s.name then
      .error .duplicateKey
    else pure (some doc, replaceDoc doc st)

/-! ## Requests and responses -/

/-- The authenticated user attached to a request (`req.user`). -/
structure User where
  id : Nat
  role : String
deriving DecidableEq

/-- The fields of `req.body` that the controllers read. -/
structure Body where
  name : JsVal := .undefined
  category : JsVal := .undefined
  price : JsVal := .undefined
  quantity : JsVal := .undefined
  description : JsVal := .undefined
  image : JsVal := .undefined
deriving DecidableEq

/-- The parameters of `req.query` that `searchSweets` reads, each a string or absent. -/
structure Query where
  name : Option String := none
  category : Option String := none
  minPrice : Option String := none
  maxPrice : Option String := none
deriving DecidableEq

/-- An incoming request. -/
structure Req where
  /-- The user that the bearer token of the request resolves to; `none` when the header is
  missing or malformed or the token does not verify. -/
  credential : Option User := none
  /-- The variable `req.user`, filled in by the `protect` middleware. -/
  user : Option User := none
  /-- The parameter `req.params.id` as an ObjectId; `none` when it is not a well-formed
  id, in which case `findById` throws a cast error. -/
  id : Option Nat := none
  body : Body := {}
  query : Query := {}
  /-- The messages collected by the express-validator chains that ran on the request. -/
  validationErrors : List String := []
  /-- The value of `Date.now()` while the request is served. -/
  now : Nat := 0
deriving DecidableEq

/-- The `data` member of a JSON response. -/
inductive Payload where
  | none
  | sweet (s : Sweet)
  | sweets (l : List Sweet)
deriving DecidableEq

/-- A JSON response with its status code. -/
structure Response where
  status : Nat
  success : Bool
  message : Option String := none
  errors : List String := []
  count : Option Nat := none
  data : Payload := .none
deriving DecidableEq

/-- The response `res.status(404).json({ success: false, message: 'Sweet not found' })`. -/
def notFound : Response :=
  { status := 404, success := false, message := some "Sweet not found" }

/-- The response of the generic `catch` branch: `res.status(500).json({ success: false,
message: error.message })`. -/
def serverError (message : String) : Response :=
  { status := 500, success := false, message := some message }

/-! ## Controllers (`controllers/sweetController.js`) -/

/-- The controller `exports.purchaseSweet`. -/
def purchaseSweet (env : JsEnv) (req : Req) (st : Store) : Response × Store :=
  match req.id with
  | none => (serverError (DbError.message .cast), st)
  | some id =>
    match findById st id with
    | none => (notFound, st)
    | some sweet =>
      let quantity := req.body.quantity
      let purchaseQuantity := jsOr quantity (.num 1)
      if numLt (some sweet.quantity) (toNumber env purchaseQuantity) then
        ({ status := 400, success := false, message := some "Not enough stock available" }, st)
      else
        match saveQuantity env st sweet (jsSub env (.num sweet.quantity) purchaseQuantity)
            req.now with
        | .error e => (serverError e.message, st)
        | .ok (saved, st') =>
          ({ status := 200, success := true,
             message := some ("Successfully purchased " ++ toStr env purchaseQuantity ++ " "
               ++ saved.name ++ "(s)"),
             data := .sweet saved }, st')

/-- The controller `exports.restockSweet`. -/
def restockSweet (env : JsEnv) (req : Req) (st : Store) : Response × Store :=
  match req.id with
  | none => (serverError (DbError.message .cast), st)
  | some id =>
    match findById st id with
    | none => (notFound, st)
    | some sweet =>
      let quantity := req.body.quantity
      let restockQuantity := jsOr quantity (.num 1)
      if numLt (toNumber env restockQuantity) (some 1) then
        ({ status := 400, success := false,
           message := some "Restock quantity must be at least 1" }, st)
      else
        match saveQuantity env st sweet (jsAdd env (.num sweet.quantity) restockQuantity)
            req.now with
        | .error e => (serverError e.message, st)
        | .ok (saved, st') =>
          ({ status := 200, success := true,
             message := some ("Successfully restocked " ++ toStr env restockQuantity ++ " "
               ++ saved.name ++ "(s)"),
             data := .sweet saved }, st')

/-- The controller `exports.createSweet`. -/
def createSweet (env : JsEnv) (req : Req) (st : Store) : Response × Store :=
  if req.validationErrors ≠ [] then
    ({ status := 400, success := false, errors := req.validationErrors }, st)
  else
    match req.user with
    | none => (serverError "Cannot read properties of undefined", st)
    | some user =>
      let b := req.body
      match createDoc env st b.name b.category b.price b.quantity b.description b.image
          user.id req.now with
      | .error e =>
        if e.code = some 11000 then
          ({ status := 400, success := false,
             message := some "A sweet with this name already exists" }, st)
        else (serverError e.message, st)
      | .ok (sweet, st') => ({ status := 201, success := true, data := .sweet sweet }, st')

/-- The controller `exports.updateSweet`. -/
def updateSweet (env : JsEnv) (req : Req) (st : Store) : Response × Store :=
  match req.id with
  | none => (serverError (DbError.message .cast), st)
  | some id =>
    match findById st id with
    | none => (notFound, st)
    | some _ =>
      let b := req.body
      match findByIdAndUpdate env st id b.name b.category b.price b.quantity b.description
          b.image with
      | .error e => (serverError e.message, st)
      | .ok (some sweet, st') => ({ status := 200, success := true, data := .sweet sweet }, st')
      | .ok (none, st') => ({ status := 200, success := true }, st')

/-- The controller `exports.deleteSweet`. -/
def deleteSweet (req : Req) (st : Store) : Response × Store :=
  match req.id with
  | none => (serverError (DbError.message .cast), st)
  | some id =>
    match findById st id with
    | none => (notFound, st)
    | some sweet =>
      ({ status := 200, success := true, message := some "Sweet deleted successfully" },
        removeDoc sweet._id st)

/-! ### Queries

`Sweet.find(query)` returns the matching documents in collection order.  The call
`.populate('createdBy', 'name email')` only changes how the `createdBy` reference is
rendered in the answer and is not part of the model. -/

/-- The characters that may have a special meaning in a regular expression. -/
def regexMeta : List Char :=
  [Char.ofNat 92, '^', '$', '.', '|', '?', '*', '+', '(', ')', '[', ']', Char.ofNat 123,
    Char.ofNat 125]

/-- One element of a pattern of the modelled fragment of regular expressions. -/
inductive PatItem where
  /-- A literal character. -/
  | lit (c : Char)
  /-- The dot: any character but the line feed. -/
  | any
deriving DecidableEq

/-- Read a pattern of the modelled fragment: literal characters and dots.  `none` when
the pattern uses another special character. -/
def parsePattern : List Char → Option (List PatItem)
  | [] => some []
  | c :: rest =>
    if c = '.' then (parsePattern rest).map (fun items => PatItem.any :: items)
    else if c ∈ regexMeta then none
    else (parsePattern rest).map (fun items => PatItem.lit c :: items)

/-- One pattern element against one character, letter case ignored (option `i`). -/
def itemMatches (env : JsEnv) : PatItem → Char → Bool
  | .lit c, d => env.regexFold c == env.regexFold d
  | .any, d => d != Char.ofNat 10

/-- The pattern matches at the start of the subject. -/
def matchesAt (env : JsEnv) : List PatItem → List Char → Bool
  | [], _ => true
  | _ :: _, [] => false
  | i :: items, d :: rest => itemMatches env i d && matchesAt env items rest

/-- The pattern matches somewhere in the subject (patterns are not anchored). -/
def searchIn (env : JsEnv) (items : List PatItem) : List Char → Bool
  | [] => matchesAt env items []
  | d :: rest => matchesAt env items (d :: rest) || searchIn env items rest

/-- The test `{ $regex: pattern, $options: 'i' }` on a string: `none` when the pattern
does not compile. -/
def regexTest (env : JsEnv) (pattern : String) : Option (String → Bool) :=
  match parsePattern pattern.toList with
  | some items => some (fun subject => searchIn env items subject.toList)
  | none => env.regex pattern

/-- Truthiness of a query parameter: present and not the empty string. -/
def given : Option String → Bool
  | some s => decide (s ≠ "")
  | none => false

/-- The filter object that `searchSweets` builds.  A price bound holds the result of
`parseFloat`, where the inner `none` is `NaN`. -/
structure Filter where
  name : Option String := none
  category : Option String := none
  gte : Option (Option ℚ) := none
  lte : Option (Option ℚ) := none

/-- Mongoose's cast of a price bound of a filter: `NaN` cannot be cast to a number. -/
def castBound : Option (Option ℚ) → Except DbError (Option ℚ)
  | none => .ok none
  | some none => .error .cast
  | some (some b) => .ok (some b)

/-- The test that a filter puts on the name; `none` when its pattern does not compile. -/
def nameTest (env : JsEnv) : Option String → Option (String → Bool)
  | none => some (fun _ => true)
  | some pattern => regexTest env pattern

/-- The call `Sweet.find(filter)`. -/
def find (env : JsEnv) (st : Store) (filter : Filter) : Except DbError (List Sweet) := do
  let gte ← castBound filter.gte
  let lte ← castBound filter.lte
  match nameTest env filter.name with
  | none => .error .query
  | some test =>
    .ok (st.filter (fun s =>
      test s.name
      && (match filter.category with
          | none => true
          | some c => decide (s.category = c))
      && (match gte with
          | none => true
          | some b => decide (b ≤ s.price))
      && (match lte with
          | none => true
          | some b => decide (s.price ≤ b))))

/-- The controller `exports.getSweets`. -/
def getSweets (env : JsEnv) (_req : Req) (st : Store) : Response × Store :=
  match find env st {} with
  | .error e => (serverError e.message, st)
  | .ok sweets =>
    ({ status := 200, success := true, count := some sweets.length, data := .sweets sweets },
      st)

/-- The controller `exports.getSweet`. -/
def getSweet (req : Req) (st : Store) : Response × Store :=
  match req.id with
  | none => (serverError (DbError.message .cast), st)
  | some id =>
    match findById st id with
    | none => (notFound, st)
    | some sweet => ({ status := 200, success := true, data := .sweet sweet }, st)

/-- The controller `exports.searchSweets`. -/
def searchSweets (env : JsEnv) (req : Req) (st : Store) : Response × Store :=
  let name := req.query.name
  let category := req.query.category
  let minPrice := req.query.minPrice
  let maxPrice := req.query.maxPrice
  let query : Filter := {}
  let query := if given name then { query with name := name } else query
  let query := if given category then { query with category := category } else query
  let query :=
    if given minPrice || given maxPrice then
      { query with
        gte := if given minPrice then minPrice.map env.parseFloat else none
        lte := if given maxPrice then maxPrice.map env.parseFloat else none }
    else query
  match find env st query with
  | .error e => (serverError e.message, st)
  | .ok sweets =>
    ({ status := 200, success := true, count := some sweets.length, data := .sweets sweets },
      st)

/-! ## Middleware and routes (`routes/sweets.js`) -/

/-- What a middleware does with a request: hand it on (`next()`) or answer it. -/
inductive Step where
  | next (req : Req)
  | done (res : Response)

/-- An Express middleware. -/
abbrev Middleware := Req → Step

/-- A route handler: the response and the collection after the request. -/
abbrev Controller := Req → Store → Response × Store

/-- Modelled from the spec: `protect` of `middleware/auth.js`, which is not among the
sources.  It decodes the token and loads the user into `req.user`; a request without a
valid token is answered 401 with `success: false` and a message containing
"Not authorized". -/
def protect : Middleware := fun req =>
  match req.credential with
  | none =>
    .done { status := 401, success := false,
            message := some "Not authorized to access this route" }
  | some u => .next { req with user := some u }

/-- Modelled from the spec: `authorize(...roles)` of `middleware/auth.js`, which is not among
the sources.  The role check is a string comparison of `req.user.role` with the allowed
roles; a user with another role is answered 403 with `success: false`. -/
def authorize (roles : List String) : Middleware := fun req =>
  match req.user with
  | none => .done (serverError "Cannot read properties of undefined")
  | some u =>
    if u.role ∈ roles then .next req
    else .done { status := 403, success := false,
                 message := some ("User role " ++ u.role ++ " is not authorized to access this route") }

/-- The string express-validator validates: its `toString` of the field value. -/
def validatorString (env : JsEnv) : JsVal → String
  | .undefined => ""
  | .null => ""
  | .nan => ""
  | v => toStr env v

/-- The check `isFloat({ min: 0 })` on a field value. -/
def isFloatMin0 (env : JsEnv) : JsVal → Bool
  | .num x => decide (0 ≤ x)
  | .str s =>
    match env.floatLit s with
    | some x => decide (0 ≤ x)
    | none => false
  | _ => false

/-- The check `isInt({ min: 0 })` on a field value.  The check reads the text of the value,
and the text of a number is a string of decimal digits only for an integer below `10 ^ 21`:
from there on `String(x)` is in exponent notation, which is not the integer shape. -/
def isIntMin0 (env : JsEnv) : JsVal → Bool
  | .num x => decide (x.den = 1 ∧ 0 ≤ x ∧ x < 10 ^ 21)
  | .str s =>
    match env.intLit s with
    | some z => decide (0 ≤ z)
    | none => false
  | _ => false

/-- The chains of `sweetValidation`: `name` is trimmed in place, and every failed check
adds its message to the validation result of the request. -/
def sweetValidation (env : JsEnv) : Middleware := fun req =>
  let name := env.trim (validatorString env req.body.name)
  let errors :=
    (if name = "" then ["Sweet name is required"] else [])
    ++ (if validatorString env req.body.category = "" then ["Category is required"] else [])
    ++ (if isFloatMin0 env req.body.price then [] else ["Price must be a positive number"])
    ++ (if isIntMin0 env req.body.quantity then []
        else ["Quantity must be a non-negative integer"])
  .next { req with body := { req.body with name := .str name },
                   validationErrors := req.validationErrors ++ errors }

/-- Run a chain of middleware and then the controller, as Express does for the handlers of
one route. -/
def runChain : List Middleware → Controller → Controller
  | [], ctrl, req, st => ctrl req st
  | m :: ms, ctrl, req, st =>
    match m req with
    | .next req' => runChain ms ctrl req' st
    | .done res => (res, st)

/-- The protected and inventory routes of the router. -/
inductive Route where
  /-- The route `POST /api/sweets`. -/
  | create
  /-- The route `PUT /api/sweets/:id`. -/
  | update
  /-- The route `DELETE /api/sweets/:id`. -/
  | delete
  /-- The route `POST /api/sweets/:id/purchase`. -/
  | purchase
  /-- The route `POST /api/sweets/:id/restock`. -/
  | restock
deriving DecidableEq

/-- The middleware registered on each route before its controller. -/
def routeChain (env : JsEnv) : Route → List Middleware
  | .create => [protect, authorize ["admin"], sweetValidation env]
  | .update => [protect, authorize ["admin"]]
  | .delete => [protect, authorize ["admin"]]
  | .purchase => [protect]
  | .restock => [protect, authorize ["admin"]]

/-- The controller registered on each route. -/
def routeController (env : JsEnv) : Route → Controller
  | .create => createSweet env
  | .update => updateSweet env
  | .delete => deleteSweet
  | .purchase => purchaseSweet env
  | .restock => restockSweet env

/-- The router: a request to a route runs the middleware of the route and then its
controller. -/
def router (env : JsEnv) (route : Route) : Controller :=
  runChain (routeChain env route) (routeController env route)

/-- The collection after serving a sequence of controller calls in order. -/
def serveAll (env : JsEnv) : List (Route × Req) → Store → Store
  | [], st => st
  | (route, req) :: rest, st => serveAll env rest (routeController env route req st).2

/-! ## Saving a new document (`models/Sweet.js`) -/

/-- The argument of `new Sweet({ ... })`: each field a value or absent. -/
structure SweetFields where
  name : JsVal := .undefined
  category : JsVal := .undefined
  price : JsVal := .undefined
  quantity : JsVal := .undefined
  description : JsVal := .undefined
  image : JsVal := .undefined
  /-- The reference `createdBy`; `none` when the field is absent. -/
  createdBy : Option Nat := none
deriving DecidableEq

/-- The calls `new Sweet(fields).save()`: `createdBy` is required, and the other paths are
defaulted, cast and validated as in `Sweet.create`. -/
def saveNewSweet (env : JsEnv) (st : Store) (fields : SweetFields) (now : Nat) :
    Except DbError (Sweet × Store) :=
  match fields.createdBy with
  | none => .error (.validation "Path createdBy is required")
  | some createdBy =>
    createDoc env st fields.name fields.category fields.price fields.quantity
      fields.description fields.image createdBy now

/-- The call `Sweet.insertMany(docs)` when it succeeds: the documents are validated and
inserted in order.  An error is reported without the documents inserted before it. -/
def insertMany (env : JsEnv) (now : Nat) : Store → List SweetFields → Except DbError Store
  | st, [] => .ok st
  | st, fields :: rest =>
    match saveNewSweet env st fields now with
    | .error e => .error e
    | .ok (_, st') => insertMany env now st' rest

/-! ## Seed data (`seed.js`) -/

/-- One record of the array `sweets` of `seed.js`. -/
structure SeedSweet where
  name : String
  category : String
  price : ℚ
  quantity : ℚ
  description : String
  image : String
deriving DecidableEq

/-- The array `sweets` of `seed.js`. -/
def sweets : List SeedSweet :=
  [ { name := "Milk Chocolate Bar", category := "Chocolate", price := 249, quantity := 150,
      description := "Smooth and creamy milk chocolate bar",
      image := "https://images.unsplash.com/photo-1511381939415-e44015466834?w=400" },
    { name := "Dark Chocolate Truffle", category := "Chocolate", price := 399, quantity := 80,
      description := "Rich dark chocolate truffle with cocoa dusting",
      image := "https://images.unsplash.com/photo-1548907040-4baa42d10919?w=400" },
    { name := "Gummy Bears", category := "Gummy", price := 149, quantity := 200,
      description := "Colorful fruity gummy bears",
      image := "https://images.unsplash.com/photo-1582058091505-f87a2e55a40f?w=400" },
    { name := "Strawberry Lollipop", category := "Lollipop", price := 79, quantity := 250,
      description := "Sweet strawberry flavored lollipop",
      image := "https://images.unsplash.com/photo-1625869016774-3a92be2ae2cd?w=400" },
    { name := "Chocolate Chip Cookies", category := "Cookie", price := 279, quantity := 120,
      description := "Fresh baked chocolate chip cookies",
      image := "https://images.unsplash.com/photo-1499636136210-6f4ee915583e?w=400" },
    { name := "Rainbow Candy Strips", category := "Candy", price := 119, quantity := 180,
      description := "Colorful tangy candy strips",
      image := "https://images.unsplash.com/photo-1581798459219-c8f5e27b7b76?w=400" },
    { name := "Vanilla Cupcake", category := "Cake", price := 199, quantity := 90,
      description := "Moist vanilla cupcake with buttercream frosting",
      image := "https://images.unsplash.com/photo-1576618148400-f54bed99fcfd?w=400" },
    { name := "Sour Gummy Worms", category := "Gummy", price := 179, quantity := 160,
      description := "Tangy sour gummy worms",
      image := "https://images.unsplash.com/photo-1621939514649-280e2ee25f60?w=400" },
    { name := "Peppermint Candy Cane", category := "Candy", price := 59, quantity := 300,
      description := "Classic red and white peppermint candy cane",
      image := "https://images.unsplash.com/photo-1544465544-1b71aee9dfa3?w=400" },
    { name := "White Chocolate Macadamia Cookie", category := "Cookie", price := 319, quantity := 100,
      description := "Premium white chocolate and macadamia nut cookie",
      image := "https://images.unsplash.com/photo-1558961363-fa8fdf82db35?w=400" },
    { name := "Caramel Lollipop", category := "Lollipop", price := 99, quantity := 220,
      description := "Creamy caramel swirl lollipop",
      image := "https://images.unsplash.com/photo-1514517521153-1be72277b32f?w=400" },
    { name := "Chocolate Fudge Cake", category := "Cake", price := 479, quantity := 50,
      description := "Decadent triple layer chocolate fudge cake",
      image := "https://images.unsplash.com/photo-1578985545062-69928b1d9587?w=400" },
    { name := "Fruit Jellies", category := "Gummy", price := 199, quantity := 140,
      description := "Assorted fruit flavored jellies",
      image := "https://images.unsplash.com/photo-1587314168485-3236d6710814?w=400" },
    { name := "Mint Chocolate Bar", category := "Chocolate", price := 259, quantity := 110,
      description := "Refreshing mint chocolate bar",
      image := "https://images.unsplash.com/photo-1610450949065-1f2841536c88?w=400" },
    { name := "Cotton Candy", category := "Other", price := 149, quantity := 130,
      description := "Light and fluffy cotton candy",
      image := "https://images.unsplash.com/photo-1563805042-7684c019e1cb?w=400" },
    { name := "Butterscotch Candy", category := "Candy", price := 139, quantity := 190,
      description := "Classic butterscotch hard candy",
      image := "https://images.unsplash.com/photo-1582058091505-be62327df9cf?w=400" },
    { name := "Red Velvet Cake", category := "Cake", price := 519, quantity := 45,
      description := "Classic red velvet cake with cream cheese frosting",
      image := "https://images.unsplash.com/photo-1586985289688-ca3cf47d3e6e?w=400" },
    { name := "Oatmeal Raisin Cookie", category := "Cookie", price := 239, quantity := 135,
      description := "Chewy oatmeal cookie with plump raisins",
      image := "https://images.unsplash.com/photo-1590080876849-b5c82c8555aa?w=400" },
    { name := "Assorted Chocolate Box", category := "Chocolate", price := 999, quantity := 60,
      description := "Premium assorted chocolate gift box",
      image := "https://images.unsplash.com/photo-1549007994-cb92caebd54b?w=400" },
    { name := "Bubble Gum Lollipop", category := "Lollipop", price := 89, quantity := 200,
      description := "Fun bubble gum flavored lollipop",
      image := "https://images.unsplash.com/photo-1623428187969-5da2dcea5ebf?w=400" } ]

/-- The element `{ ...sweet, createdBy: adminUser._id }` of `sweetsWithCreator`. -/
def withCreator (adminId : Nat) (sweet : SeedSweet) : SweetFields :=
  { name := .str sweet.name, category := .str sweet.category, price := .num sweet.price,
    quantity := .num sweet.quantity, description := .str sweet.description,
    image := .str sweet.image, createdBy := some adminId }

/-- The sweets part of `seedDatabase`: the collection is emptied by `Sweet.deleteMany({})`
and the seed records are inserted with the admin as creator. -/
def seedDatabase (env : JsEnv) (adminId now : Nat) : Except DbError Store :=
  let sweetsWithCreator := sweets.map (withCreator adminId)
  insertMany env now [] sweetsWithCreator

/-! ## Frontend (`pages/Dashboard.js`, `components/SweetCard.js`) -/

/-- The state of the `Dashboard` component that `filterSweets` reads and writes. -/
structure Dashboard where
  sweets : List Sweet := []
  filteredSweets : List Sweet := []
  searchTerm : String := ""
  category : String := ""
  /-- The value of the price slider: the number 4000 at first, then the string value of
  the range input. -/
  priceRange : JsVal := .num 4000

/-- The method `s.includes(t)`. -/
def includes (s t : String) : Bool :=
  decide (t.toList <:+: s.toList)

/-- The comparison `a <= b` when at least one operand is not a string: both operands are
converted with `ToNumber`, and a `NaN` on either side makes the comparison false. -/
def numLe : Option ℚ → Option ℚ → Bool
  | some x, some y => decide (x ≤ y)
  | _, _ => false

/-- The function `filterSweets` of the Dashboard: it filters the fetched `sweets` and
stores the result with `setFilteredSweets`. -/
def filterSweets (env : JsEnv) (d : Dashboard) : Dashboard :=
  let filtered := d.sweets
  let filtered :=
    if d.searchTerm ≠ "" then
      filtered.filter (fun sweet =>
        includes (env.toLowerCase sweet.name) (env.toLowerCase d.searchTerm))
    else filtered
  let filtered :=
    if d.category ≠ "" then
      filtered.filter (fun sweet => decide (sweet.category = d.category))
    else filtered
  let filtered :=
    filtered.filter (fun sweet => numLe (some sweet.price) (toNumber env d.priceRange))
  { d with filteredSweets := filtered }

/-- The request that `handlePurchase(sweetId)` sends through `sweetAPI.purchase(sweetId, 1)`:
a purchase of the sweet with `quantity: 1` in the body. -/
def handlePurchase (credential : Option User) (now : Nat) (sweetId : Nat) : Req :=
  { credential := credential, id := some sweetId, body := { quantity := .num 1 },
    now := now }

/-- The constant `isOutOfStock` of `SweetCard`: `sweet.quantity === 0`. -/
def isOutOfStock (sweet : Sweet) : Bool :=
  decide (sweet.quantity = 0)

/-- The attribute `disabled` of the purchase button that `SweetCard` renders for a user
who is not an admin. -/
def purchaseDisabled (sweet : Sweet) : Bool :=
  isOutOfStock sweet

/-! ## Predicates used in the statements -/

/-- The rational `x` is a finite double: rounding leaves it unchanged and it is below
`2 ^ 1024` in absolute value. -/
def IsDouble (x : ℚ) : Prop :=
  roundDouble x = x ∧ |x| < 2 ^ 1024

instance (x : ℚ) : Decidable (IsDouble x) := by
  unfold IsDouble
  infer_instance

/-- The schema constraints on a stored document: what validation on `save()` checks. -/
def SchemaOk (s : Sweet) : Prop :=
  s.name ≠ "" ∧ s.category ∈ categoryEnum ∧ 0 ≤ s.price ∧ 0 ≤ s.quantity

instance (s : Sweet) : Decidable (SchemaOk s) := by
  unfold SchemaOk; infer_instance

/-- Price and quantity of a document are non-negative. -/
def NonNeg (s : Sweet) : Prop :=
  0 ≤ s.price ∧ 0 ≤ s.quantity

/-- No two stored sweets share a name. -/
def NamesDistinct (st : Store) : Prop :=
  st.Pairwise (fun a b => a.name ≠ b.name)

/-- No two stored documents share an `_id`. -/
def IdsDistinct (st : Store) : Prop :=
  st.Pairwise (fun a b => a._id ≠ b._id)

/-- The words of the specification for the name search: `name` contains `s` as a
substring, letter case ignored, where two characters are the same up to letter case when
they have the same case folding. -/
def containsIgnoreCase (fold : Char → Char) (s name : String) : Prop :=
  s.toList.map fold <:+: name.toList.map fold

instance (fold : Char → Char) (s name : String) :
    Decidable (containsIgnoreCase fold s name) := by
  unfold containsIgnoreCase; infer_instance

/-- The words of the specification for the search box of the Dashboard: `name` contains
`term` as a substring once both are put in lower case. -/
def containsLowerCase (lower : String → String) (term name : String) : Prop :=
  (lower term).toList <:+: (lower name).toList

instance (lower : String → String) (term name : String) :
    Decidable (containsLowerCase lower term name) := by
  unfold containsLowerCase; infer_instance

/-- The sweet created by `beforeEach` of the purchase tests. -/
def limitedSweet : Sweet :=
  { _id := 1, name := "Limited Sweet", category := "Candy", price := 199 / 100,
    quantity := 5, description := some "", image := some defaultImage,
    createdBy := 7, createdAt := 0, updatedAt := 0 }

/-- The sweet created by `beforeEach` of the restock tests. -/
def restockSweetDoc : Sweet :=
  { _id := 2, name := "Restock Sweet", category := "Candy", price := 199 / 100,
    quantity := 10, description := some "", image := some defaultImage,
    createdBy := 7, createdAt := 0, updatedAt := 0 }

/-- A request to purchase or restock the sweet `id` with `quantity` in the body. -/
def quantityReq (id : Nat) (quantity : JsVal) (cred : Option User) : Req :=
  { credential := cred, id := some id, body := { quantity := quantity }, now := 9 }

/-- The words of the specification for the category and price filters: the sweet has the
given category, a price at least the lower bound and at most the upper bound, where an
omitted filter imposes no restriction. -/
def MeetsFilters (category : Option String) (lo hi : Option ℚ) (s : Sweet) : Prop :=
  (∀ c, category = some c → s.category = c)
    ∧ (∀ b, lo = some b → b ≤ s.price)
    ∧ (∀ b, hi = some b → s.price ≤ b)

instance (category : Option String) (lo hi : Option ℚ) (s : Sweet) :
    Decidable (MeetsFilters category lo hi s) := by
  unfold MeetsFilters
  cases category <;> cases lo <;> cases hi <;> simp <;> infer_instance

/-- An admin, as registered by the tests. -/
def adminUser : User := { id := 3, role := "admin" }

/-- A request of the admin to create a sweet with the given fields. -/
def createReq (name category price quantity : JsVal) : Req :=
  { credential := some adminUser,
    body := { name := name, category := category, price := price, quantity := quantity },
    now := 9 }

/-- The document that `createSweet` stores for a request that passes all checks. -/
def createdDoc (env : JsEnv) (st : Store) (name category : String) (price quantity : ℚ)
    (description image : JsVal) (createdBy now : Nat) : Sweet :=
  { _id := freshId st, name := name, category := category, price := price,
    quantity := quantity,
    description := castString env (if description = .undefined then .str "" else description),
    image := castString env (if image = .undefined then .str defaultImage else image),
    createdBy := createdBy, createdAt := now, updatedAt := now }

/-- A string field of a body that is supplied or left out. -/
def optStr : Option String → JsVal
  | some v => .str v
  | none => .undefined

/-- A number field of a body that is supplied or left out. -/
def optNum : Option ℚ → JsVal
  | some x => .num x
  | none => .undefined

/-- The sweet `s` after an update that supplies some of name, price and description: each
supplied field holds the supplied value (the name trimmed), the others are as before. -/
def updatedDoc (env : JsEnv) (s : Sweet) (name : Option String) (price : Option ℚ)
    (description : Option String) : Sweet :=
  { s with
    name := match name with
      | some v => env.trim v
      | none => s.name
    price := match price with
      | some x => x
      | none => s.price
    description := match description with
      | some v => some v
      | none => s.description }

/-- The frame condition of a purchase or restock on the collection `st` with outcome `r`:
when the answer is 200, one stored sweet, the one with the id of the request, is replaced
in place by the returned document, which differs from it in `quantity` and `updatedAt`
only, and the sweets before and after it are as they were; with any other answer the
collection is unchanged. -/
def QuantityFrame (req : Req) (st : Store) (r : Response × Store) : Prop :=
  (r.1.status = 200 →
      ∃ (s saved : Sweet) (before after : List Sweet),
        req.id = some s._id ∧ st = before ++ s :: after ∧ r.2 = before ++ saved :: after
          ∧ r.1.data = .sweet saved
          ∧ saved = { s with quantity := saved.quantity, updatedAt := req.now })
    ∧ (r.1.status ≠ 200 → r.2 = st)

/-! ## Lemmas on rounding -/

/-- Integers are their own rounding. -/
theorem roundHalfEven_intCast (z : ℤ) : roundHalfEven (z : ℚ) = z := by
  simp [roundHalfEven]

/-- A number `m * 2 ^ k` with `m < 2 ^ 53` and `k ≥ -1074` is a double. -/
theorem roundPos_dyadic (m : ℕ) (k : ℤ) (hm : m < 2 ^ 53) (hk : -1074 ≤ k) :
    roundPos ((m : ℚ) * 2 ^ k) = (m : ℚ) * 2 ^ k := by
  by_cases hm0 : m = 0
  · simp [roundPos, hm0]
  have hmpos : (0 : ℚ) < m := by exact_mod_cast Nat.pos_of_ne_zero hm0
  have h2k : (0 : ℚ) < 2 ^ k := zpow_pos (by norm_num) k
  have hapos : (0 : ℚ) < (m : ℚ) * 2 ^ k := mul_pos hmpos h2k
  have hlt : (m : ℚ) * 2 ^ k < ((2 : ℕ) : ℚ) ^ (k + 53) := by
    have h1 : (m : ℚ) < 2 ^ (53 : ℕ) := by exact_mod_cast hm
    have h2 : ((2 : ℕ) : ℚ) ^ (k + 53) = 2 ^ (53 : ℕ) * 2 ^ k := by
      rw [zpow_add₀ (by norm_num), mul_comm]
      norm_num
    rw [h2]
    exact mul_lt_mul_of_pos_right h1 h2k
  have hlog : Int.log 2 ((m : ℚ) * 2 ^ k) < k + 53 :=
    (Int.lt_zpow_iff_log_lt (by norm_num) hapos).mp hlt
  unfold roundPos
  rw [if_neg (ne_of_gt hapos)]
  simp only
  generalize hqdef : max (Int.log 2 ((m : ℚ) * 2 ^ k) - 52) (-1074) = q
  have hq : q ≤ k := by
    rw [← hqdef]
    exact max_le (by omega) hk
  obtain ⟨n, hn⟩ := Int.eq_ofNat_of_zero_le (sub_nonneg.mpr hq)
  have hpow : (2 : ℚ) ^ k = 2 ^ q * 2 ^ n := by
    rw [← zpow_natCast, ← zpow_add₀ (by norm_num)]
    congr 1
    omega
  have h2q : (2 : ℚ) ^ q ≠ 0 := zpow_ne_zero _ (by norm_num)
  have hdiv : (m : ℚ) * 2 ^ k / 2 ^ q = ((m * 2 ^ n : ℕ) : ℤ) := by
    rw [div_eq_iff h2q, hpow]
    push_cast
    ring
  rw [hdiv, roundHalfEven_intCast, hpow]
  push_cast
  ring

/-- Rounding leaves the doubles `m * 2 ^ k`, `|m| < 2 ^ 53`, `k ≥ -1074`, as they are. -/
theorem roundDouble_dyadic (m k : ℤ) (hm : |m| < 2 ^ 53) (hk : -1074 ≤ k) :
    roundDouble ((m : ℚ) * 2 ^ k) = (m : ℚ) * 2 ^ k := by
  have h2k : (0 : ℚ) < 2 ^ k := zpow_pos (by norm_num) k
  have hnat : (m.natAbs : ℤ) = |m| := Int.natCast_natAbs m
  have hlt : m.natAbs < 2 ^ 53 := by
    have : (m.natAbs : ℤ) < 2 ^ 53 := by rw [hnat]; exact hm
    exact_mod_cast this
  unfold roundDouble
  by_cases hneg : m < 0
  · have hx : (m : ℚ) * 2 ^ k < 0 := mul_neg_of_neg_of_pos (by exact_mod_cast hneg) h2k
    have h' : (m.natAbs : ℚ) = -(m : ℚ) := by
      have h1 : (m.natAbs : ℤ) = -m := by rw [hnat, abs_of_neg hneg]
      have h2 := congrArg (Int.cast : ℤ → ℚ) h1
      rw [Int.cast_natCast, Int.cast_neg] at h2
      exact h2
    have habs : -((m : ℚ) * 2 ^ k) = (m.natAbs : ℚ) * 2 ^ k := by
      rw [h']
      ring
    rw [if_pos hx, habs, roundPos_dyadic _ k hlt hk, ← habs]
    ring
  · have hx : ¬ ((m : ℚ) * 2 ^ k < 0) := by
      rw [not_lt]
      exact mul_nonneg (by exact_mod_cast (not_lt.mp hneg)) (le_of_lt h2k)
    have hm' : (m : ℚ) = (m.natAbs : ℚ) := by
      have h1 : (m.natAbs : ℤ) = m := by rw [hnat, abs_of_nonneg (not_lt.mp hneg)]
      have h2 := congrArg (Int.cast : ℤ → ℚ) h1
      rw [Int.cast_natCast] at h2
      exact h2.symm
    rw [if_neg hx, hm', roundPos_dyadic _ k hlt hk]

/-- Rounding leaves the integers up to `2 ^ 53` in absolute value as they are. -/
theorem roundDouble_intCast (z : ℤ) (hz : |z| ≤ 2 ^ 53) : roundDouble (z : ℚ) = z := by
  rcases lt_or_eq_of_le hz with h | h
  · have := roundDouble_dyadic z 0 h (by norm_num)
    simpa using this
  · rcases (abs_eq (by norm_num : (0 : ℤ) ≤ 2 ^ 53)).mp h with h | h
    · have := roundDouble_dyadic 1 53 (by norm_num) (by norm_num)
      rw [h]
      norm_num at this ⊢
      exact this
    · have := roundDouble_dyadic (-1) 53 (by norm_num) (by norm_num)
      rw [h]
      norm_num at this ⊢
      exact this

/-- Every integer of absolute value at most `2 ^ 53` is a double. -/
theorem isDouble_intCast (z : ℤ) (hz : |z| ≤ 2 ^ 53) : IsDouble (z : ℚ) := by
  refine ⟨roundDouble_intCast z hz, ?_⟩
  have h1 : |(z : ℚ)| ≤ 2 ^ 53 := by exact_mod_cast hz
  have h2 : (2 : ℚ) ^ 53 < 2 ^ 1024 := by
    apply pow_lt_pow_right₀ (by norm_num) (by norm_num)
  exact lt_of_le_of_lt h1 h2

/-- The integer `2 ^ 53 + 1` is not a double: it rounds to `2 ^ 53`. -/
theorem roundDouble_above : roundDouble 9007199254740993 = 9007199254740992 := by
  have hlog : Int.log 2 (9007199254740993 : ℚ) = 53 := by
    rw [Int.log_of_one_le_right 2 (by norm_num)]
    have : ⌊(9007199254740993 : ℚ)⌋₊ = 9007199254740993 := by
      exact_mod_cast Nat.floor_natCast 9007199254740993
    rw [this, @Nat.log_eq_of_pow_le_of_lt_pow 2 53 _ (by norm_num) (by norm_num)]
    rfl
  have hfloor : ⌊(9007199254740993 : ℚ) / 2⌋ = 4503599627370496 := by
    rw [Int.floor_eq_iff]
    constructor <;> norm_num
  unfold roundDouble roundPos
  rw [if_neg (by norm_num), if_neg (by norm_num)]
  simp only [hlog]
  norm_num [roundHalfEven, hfloor]
/-! ## Lemmas on the model layer -/

theorem ne_empty_of_mem_categoryEnum {c : String} (h : c ∈ categoryEnum) : c ≠ "" := by
  rintro rfl
  simp [categoryEnum] at h

theorem validateDoc_ok {s : Sweet} (h : SchemaOk s) : validateDoc s = .ok () := by
  obtain ⟨h1, h2, h3, h4⟩ := h
  have h5 := ne_empty_of_mem_categoryEnum h2
  simp [validateDoc, h5, validateName, validateCategory, validateNumber, h1, h2, h3, h4,
    bind, Except.bind, pure, Except.pure]

theorem nonNeg_of_validateDoc {s : Sweet} (h : validateDoc s = .ok ()) : NonNeg s := by
  unfold validateDoc validateName validateCategory validateNumber at h
  simp only [bind, Except.bind, pure, Except.pure] at h
  refine ⟨?_, ?_⟩
  · by_contra hp
    split_ifs at h
  · by_contra hq
    split_ifs at h

theorem findById_id {st : Store} {id : Nat} {s : Sweet} (h : findById st id = some s) :
    s._id = id := by
  have := List.find?_some h
  simpa using this

theorem findById_mem {st : Store} {id : Nat} {s : Sweet} (h : findById st id = some s) :
    s ∈ st :=
  List.mem_of_find?_eq_some h

theorem findById_replaceDoc (st : Store) (doc s : Sweet)
    (h : findById st doc._id = some s) : findById (replaceDoc doc st) doc._id = some doc := by
  induction st with
  | nil => simp [findById] at h
  | cons a rest ih =>
    unfold replaceDoc
    by_cases ha : a._id = doc._id
    · simp [ha, findById]
    · have h2 : findById rest doc._id = some s := by
        simpa [findById, List.find?_cons, ha] using h
      simp [ha, findById, List.find?_cons]
      exact ih h2

theorem mem_replaceDoc {doc x : Sweet} {st : Store} (h : x ∈ replaceDoc doc st) :
    x = doc ∨ x ∈ st := by
  induction st with
  | nil => simp [replaceDoc] at h
  | cons a rest ih =>
    unfold replaceDoc at h
    split_ifs at h with ha
    · rcases List.mem_cons.mp h with h | h
      · exact Or.inl h
      · exact Or.inr (List.mem_cons_of_mem _ h)
    · rcases List.mem_cons.mp h with h | h
      · exact Or.inr (h ▸ List.mem_cons_self _ _)
      · rcases ih h with h | h
        · exact Or.inl h
        · exact Or.inr (List.mem_cons_of_mem _ h)

theorem mem_removeDoc {id : Nat} {x : Sweet} {st : Store} (h : x ∈ removeDoc id st) :
    x ∈ st := by
  induction st with
  | nil => simp [removeDoc] at h
  | cons a rest ih =>
    unfold removeDoc at h
    split_ifs at h with ha
    · exact List.mem_cons_of_mem _ h
    · rcases List.mem_cons.mp h with h | h
      · exact h ▸ List.mem_cons_self _ _
      · exact List.mem_cons_of_mem _ (ih h)

/-- A successful `saveQuantity` stores a document that passed validation and differs from
the loaded one in `quantity` and `updatedAt` only. -/
theorem saveQuantity_ok {env : JsEnv} {st st' : Store} {sweet saved : Sweet} {v : JsVal}
    {now : Nat} (h : saveQuantity env st sweet v now = .ok (saved, st')) :
    ∃ x, castNumber env v = some (some x) ∧ validateDoc { sweet with quantity := x } = .ok ()
      ∧ saved = { sweet with quantity := x, updatedAt := now }
      ∧ st' = replaceDoc saved st := by
  unfold saveQuantity at h
  split at h
  · simp at h
  · simp at h
  · next x hx =>
    simp only at h
    split at h
    · simp at h
    · next hv =>
      simp only [Except.ok.injEq, Prod.mk.injEq] at h
      refine ⟨x, hx, ?_, h.1.symm, ?_⟩
      · rw [hv]
      · rw [← h.2, ← h.1]

/-- The outcome of `saveQuantity` when the new quantity is a number and the document with
it satisfies the schema. -/
theorem saveQuantity_num {env : JsEnv} (st : Store) (sweet : Sweet) (x : ℚ) (now : Nat)
    (h : SchemaOk { sweet with quantity := x }) :
    saveQuantity env st sweet (.num x) now
      = .ok ({ sweet with quantity := x, updatedAt := now },
          replaceDoc { sweet with quantity := x, updatedAt := now } st) := by
  simp [saveQuantity, castNumber, validateDoc_ok h]

/-- The outcome of a purchase whose effective quantity `quantity || 1` is the number `n`,
when the stock covers `n` and the sweet satisfies the schema after the purchase: the new
quantity is the double nearest to `q - n`. -/
theorem purchaseSweet_num (env : JsEnv) (st : Store) (req : Req) (id : Nat) (s : Sweet)
    (n : ℚ) (hid : req.id = some id) (hs : findById st id = some s)
    (hb : jsOr req.body.quantity (.num 1) = .num n) (hn : ¬ s.quantity < n)
    (hok : SchemaOk { s with quantity := roundDouble (s.quantity - n) }) :
    purchaseSweet env req st
      = ({ status := 200, success := true,
           message := some ("Successfully purchased " ++ env.numToStr n ++ " "
             ++ s.name ++ "(s)"),
           data := .sweet
             { s with quantity := roundDouble (s.quantity - n), updatedAt := req.now } },
         replaceDoc
           { s with quantity := roundDouble (s.quantity - n), updatedAt := req.now } st) := by
  simp [purchaseSweet, hid, hs, hb, toNumber, numLt, hn, jsSub,
    saveQuantity_num st s _ req.now hok, toStr]

/-- The outcome of a restock whose effective quantity `quantity || 1` is the number `n ≥ 1`,
when the sweet satisfies the schema after the restock: the new quantity is the double
nearest to `q + n`. -/
theorem restockSweet_num (env : JsEnv) (st : Store) (req : Req) (id : Nat) (s : Sweet)
    (n : ℚ) (hid : req.id = some id) (hs : findById st id = some s)
    (hb : jsOr req.body.quantity (.num 1) = .num n) (hn : ¬ n < 1)
    (hok : SchemaOk { s with quantity := roundDouble (s.quantity + n) }) :
    restockSweet env req st
      = ({ status := 200, success := true,
           message := some ("Successfully restocked " ++ env.numToStr n ++ " "
             ++ s.name ++ "(s)"),
           data := .sweet
             { s with quantity := roundDouble (s.quantity + n), updatedAt := req.now } },
         replaceDoc
           { s with quantity := roundDouble (s.quantity + n), updatedAt := req.now } st) := by
  simp [restockSweet, hid, hs, hb, toNumber, numLt, hn, jsAdd,
    saveQuantity_num st s _ req.now hok, toStr]

/-- The value `quantity || 1` for a number other than 0. -/
theorem jsOr_num {n : ℚ} (hn : n ≠ 0) : jsOr (.num n) (.num 1) = .num n := by
  simp [jsOr, truthy, hn]

/-! ## Purchase -/

/-- C1 (as amended): for a stored sweet (satisfying the schema) with quantity `q` and an
integer purchase quantity `n` with `1 ≤ n ≤ q` such that `q - n` is a double (as it is
whenever `q` is an integer of at most `2 ^ 53`), `purchaseSweet` responds 200 with
`success: true`, the returned document has quantity `q - n`, and that document is what the
collection then holds under the id. -/
theorem purchaseSweet_within_stock (env : JsEnv) (st : Store) (req : Req) (id : Nat)
    (s : Sweet) (n : ℤ) (hid : req.id = some id) (hs : findById st id = some s)
    (hv : SchemaOk s) (hb : req.body.quantity = .num (n : ℚ)) (h1 : 1 ≤ n)
    (h2 : (n : ℚ) ≤ s.quantity)
    (hdbl : IsDouble (s.quantity - n)) :
    purchaseSweet env req st
        = ({ status := 200, success := true,
             message := some ("Successfully purchased " ++ env.numToStr (n : ℚ) ++ " "
               ++ s.name ++ "(s)"),
             data := .sweet { s with quantity := s.quantity - n, updatedAt := req.now } },
           replaceDoc { s with quantity := s.quantity - n, updatedAt := req.now } st)
      ∧ findById (purchaseSweet env req st).2 id
        = some { s with quantity := s.quantity - n, updatedAt := req.now } := by
  have hrep := hdbl.1
  have hn0 : (n : ℚ) ≠ 0 := by
    have : (1 : ℚ) ≤ (n : ℚ) := by exact_mod_cast h1
    linarith
  have hnlt : ¬ s.quantity < (n : ℚ) := not_lt.mpr h2
  have hok : SchemaOk { s with quantity := roundDouble (s.quantity - n) } := by
    obtain ⟨a, b, c, _⟩ := hv
    rw [hrep]
    exact ⟨a, b, c, by simpa using h2⟩
  have hval : purchaseSweet env req st
      = ({ status := 200, success := true,
           message := some ("Successfully purchased " ++ env.numToStr (n : ℚ) ++ " "
             ++ s.name ++ "(s)"),
           data := .sweet { s with quantity := s.quantity - n, updatedAt := req.now } },
         replaceDoc { s with quantity := s.quantity - n, updatedAt := req.now } st) := by
    rw [purchaseSweet_num env st req id s n hid hs (by rw [hb]; exact jsOr_num hn0) hnlt hok,
      hrep]
  refine ⟨hval, ?_⟩
  rw [hval]
  have hid2 : s._id = id := findById_id hs
  have := findById_replaceDoc st
    { s with quantity := s.quantity - n, updatedAt := req.now } s
    (by simpa [hid2] using hs)
  simpa [hid2] using this

/-- Witness for C1: buying all 5 units of the test sweet leaves quantity 0. -/
theorem purchaseSweet_within_stock_witness :
    (purchaseSweet sampleEnv (quantityReq 1 (.num 5) none) [limitedSweet]).1.status = 200
      ∧ findById (purchaseSweet sampleEnv (quantityReq 1 (.num 5) none) [limitedSweet]).2 1
        = some { limitedSweet with quantity := 0, updatedAt := 9 } := by
  have h0 : IsDouble (limitedSweet.quantity - ((5 : ℤ) : ℚ)) := by
    have h := roundDouble_intCast 0 (by norm_num)
    have e : limitedSweet.quantity - ((5 : ℤ) : ℚ) = ((0 : ℤ) : ℚ) := by
      simp [limitedSweet]
    rw [e]
    exact ⟨h, by norm_num⟩
  have h := purchaseSweet_within_stock sampleEnv [limitedSweet]
    (quantityReq 1 (.num 5) none) 1 limitedSweet 5 rfl (by simp [findById, limitedSweet])
    (by simp [SchemaOk, limitedSweet, categoryEnum]; norm_num) (by simp [quantityReq])
    (by norm_num) (by simp [limitedSweet]) h0
  refine ⟨by rw [h.1], ?_⟩
  rw [h.2]
  simp [limitedSweet, quantityReq]

/-- C1, counterexample to the claim as stated: the stored quantity 9007199254740994 is an
integer (and a double) and `1 ≤ 1 ≤ q`; the purchase of 1 unit is answered 200, and the
stored quantity becomes 9007199254740992, which is not `q - 1`: the difference is rounded
to a double. -/
theorem purchaseSweet_rounds_large_stock :
    IsDouble 9007199254740994
      ∧ SchemaOk { limitedSweet with quantity := 9007199254740994 }
      ∧ (purchaseSweet sampleEnv (quantityReq 1 (.num 1) none)
          [{ limitedSweet with quantity := 9007199254740994 }]).1.status = 200
      ∧ (purchaseSweet sampleEnv (quantityReq 1 (.num 1) none)
          [{ limitedSweet with quantity := 9007199254740994 }]).2
        = [{ limitedSweet with quantity := 9007199254740992, updatedAt := 9 }]
      ∧ (9007199254740992 : ℚ) ≠ 9007199254740994 - 1 := by
  have hv : SchemaOk { limitedSweet with quantity := 9007199254740994 } := by
    simp [SchemaOk, limitedSweet, categoryEnum]; norm_num
  have hr : roundDouble ((9007199254740994 : ℚ) - 1) = 9007199254740992 := by
    rw [show (9007199254740994 : ℚ) - 1 = 9007199254740993 by norm_num]
    exact roundDouble_above
  have hok : SchemaOk { ({ limitedSweet with quantity := 9007199254740994 } : Sweet) with
      quantity := roundDouble ((9007199254740994 : ℚ) - 1) } := by
    rw [hr]
    simp [SchemaOk, limitedSweet, categoryEnum]; norm_num
  have hp := purchaseSweet_num sampleEnv
    [{ limitedSweet with quantity := 9007199254740994 }] (quantityReq 1 (.num 1) none) 1
    { limitedSweet with quantity := 9007199254740994 } 1 rfl (by simp [findById, limitedSweet])
    (jsOr_num (by norm_num)) (by norm_num) hok
  have hd : IsDouble 9007199254740994 := by
    have h := roundDouble_dyadic 4503599627370497 1 (by norm_num) (by norm_num)
    have e : ((4503599627370497 : ℤ) : ℚ) * 2 ^ (1 : ℤ) = 9007199254740994 := by norm_num
    rw [e] at h
    exact ⟨h, by norm_num⟩
  refine ⟨hd, hv, by rw [hp], ?_, by norm_num⟩
  rw [hp]
  simp only [hr]
  simp [replaceDoc, quantityReq, limitedSweet]

/-- C2: for a stored sweet with quantity `q` and a purchase quantity `n > q`,
`purchaseSweet` responds 400 with `success: false` and the message
"Not enough stock available", and the collection is unchanged. -/
theorem purchaseSweet_exceeds_stock (env : JsEnv) (st : Store) (req : Req) (id : Nat)
    (s : Sweet) (n : ℚ) (hid : req.id = some id) (hs : findById st id = some s)
    (hb : req.body.quantity = .num n) (hn : s.quantity < n) :
    purchaseSweet env req st
      = ({ status := 400, success := false,
           message := some "Not enough stock available" }, st) := by
  by_cases hn0 : n = 0
  · have hq1 : s.quantity < 1 := by rw [hn0] at hn; linarith
    simp [purchaseSweet, hid, hs, hb, jsOr, truthy, hn0, toNumber, numLt, hq1]
  · simp [purchaseSweet, hid, hs, hb, jsOr, truthy, hn0, toNumber, numLt, hn]

/-- Witness for C2: asking for 6 units of a sweet with 5 in stock. -/
theorem purchaseSweet_exceeds_stock_witness :
    purchaseSweet sampleEnv (quantityReq 1 (.num 6) none) [limitedSweet]
      = ({ status := 400, success := false,
           message := some "Not enough stock available" }, [limitedSweet]) :=
  purchaseSweet_exceeds_stock sampleEnv [limitedSweet] (quantityReq 1 (.num 6) none) 1
    limitedSweet 6 rfl (by simp [findById, limitedSweet]) (by simp [quantityReq])
    (by simp [limitedSweet]; norm_num)

/-- C3: the code at the input of the test "should reject purchase of negative quantity":
with 5 units in stock and `quantity: -1` in the body, `purchaseSweet` responds 200 with
`success: true` and the stored quantity rises to 6. -/
theorem purchaseSweet_negative_quantity (env : JsEnv) :
    (purchaseSweet env (quantityReq 1 (.num (-1)) (some ⟨3, "user"⟩)) [limitedSweet]).1.status
        = 200
      ∧ (purchaseSweet env (quantityReq 1 (.num (-1)) (some ⟨3, "user"⟩))
          [limitedSweet]).1.success = true
      ∧ (purchaseSweet env (quantityReq 1 (.num (-1)) (some ⟨3, "user"⟩)) [limitedSweet]).2
        = [{ limitedSweet with quantity := 6, updatedAt := 9 }] := by
  have hok : SchemaOk { limitedSweet with quantity := 6 } := by
    simp [SchemaOk, limitedSweet, categoryEnum]; norm_num
  have h6 : (5 : ℚ) - (-1) = 6 := by norm_num
  have hr6 : roundDouble 6 = 6 := by simpa using roundDouble_intCast 6 (by norm_num)
  have hlt : ¬ (5 : ℚ) < -1 := by norm_num
  simp [purchaseSweet, quantityReq, findById, jsOr, truthy, toNumber, numLt, jsSub,
    show limitedSweet._id = 1 from rfl, show limitedSweet.quantity = 5 from rfl,
    saveQuantity_num _ limitedSweet 6 9 hok, replaceDoc, h6, hr6, hlt]

/-- C4: the code at the input of the test "should reject purchase of zero quantity": with
5 units in stock and `quantity: 0` in the body, `purchaseSweet` buys one unit: it responds
200 with `success: true` and the stored quantity drops to 4. -/
theorem purchaseSweet_zero_quantity (env : JsEnv) :
    (purchaseSweet env (quantityReq 1 (.num 0) (some ⟨3, "user"⟩)) [limitedSweet]).1.status
        = 200
      ∧ (purchaseSweet env (quantityReq 1 (.num 0) (some ⟨3, "user"⟩))
          [limitedSweet]).1.success = true
      ∧ (purchaseSweet env (quantityReq 1 (.num 0) (some ⟨3, "user"⟩)) [limitedSweet]).2
        = [{ limitedSweet with quantity := 4, updatedAt := 9 }] := by
  have hok : SchemaOk { limitedSweet with quantity := 4 } := by
    simp [SchemaOk, limitedSweet, categoryEnum]; norm_num
  have h4 : (5 : ℚ) - 1 = 4 := by norm_num
  have hr4 : roundDouble 4 = 4 := by simpa using roundDouble_intCast 4 (by norm_num)
  simp [purchaseSweet, quantityReq, findById, jsOr, truthy, toNumber, numLt, jsSub,
    show limitedSweet._id = 1 from rfl, show limitedSweet.quantity = 5 from rfl,
    saveQuantity_num _ limitedSweet 4 9 hok, replaceDoc, h4, hr4]

/-! ## Restock -/

/-- C6 (as amended): for a stored sweet (satisfying the schema) with quantity `q` and an
integer restock quantity `n ≥ 1` such that `q + n` is a double (as it is whenever `q + n` is
an integer of at most `2 ^ 53`), `restockSweet` responds 200 with `success: true`, the
returned document has quantity `q + n`, and that document is what the collection then holds
under the id; a request of an admin to the restock route gets exactly this answer. -/
theorem restockSweet_adds_quantity (env : JsEnv) (st : Store) (req : Req) (id : Nat)
    (s : Sweet) (n : ℤ) (hid : req.id = some id) (hs : findById st id = some s)
    (hv : SchemaOk s) (hb : req.body.quantity = .num (n : ℚ)) (h1 : 1 ≤ n)
    (hdbl : IsDouble (s.quantity + n)) :
    restockSweet env req st
        = ({ status := 200, success := true,
             message := some ("Successfully restocked " ++ env.numToStr (n : ℚ) ++ " "
               ++ s.name ++ "(s)"),
             data := .sweet { s with quantity := s.quantity + n, updatedAt := req.now } },
           replaceDoc { s with quantity := s.quantity + n, updatedAt := req.now } st)
      ∧ findById (restockSweet env req st).2 id
        = some { s with quantity := s.quantity + n, updatedAt := req.now }
      ∧ ∀ admin : User, req.credential = some admin → admin.role = "admin" →
          router env .restock req st = restockSweet env req st := by
  have hrep := hdbl.1
  have hn1 : (1 : ℚ) ≤ (n : ℚ) := by exact_mod_cast h1
  have hn0 : (n : ℚ) ≠ 0 := by linarith
  have hnlt : ¬ (n : ℚ) < 1 := not_lt.mpr hn1
  have hok : SchemaOk { s with quantity := roundDouble (s.quantity + n) } := by
    obtain ⟨a, b, c, d⟩ := hv
    rw [hrep]
    exact ⟨a, b, c, by show 0 ≤ s.quantity + n; linarith⟩
  have hval : restockSweet env req st
      = ({ status := 200, success := true,
           message := some ("Successfully restocked " ++ env.numToStr (n : ℚ) ++ " "
             ++ s.name ++ "(s)"),
           data := .sweet { s with quantity := s.quantity + n, updatedAt := req.now } },
         replaceDoc { s with quantity := s.quantity + n, updatedAt := req.now } st) := by
    rw [restockSweet_num env st req id s n hid hs (by rw [hb]; exact jsOr_num hn0) hnlt hok,
      hrep]
  refine ⟨hval, ?_, ?_⟩
  · rw [hval]
    have hid2 : s._id = id := findById_id hs
    have := findById_replaceDoc st
      { s with quantity := s.quantity + n, updatedAt := req.now } s
      (by simpa [hid2] using hs)
    simpa [hid2] using this
  · intro admin hc hr
    simp [router, routeChain, routeController, runChain, protect, authorize, hc, hr,
      restockSweet]

/-- Witness for C6: the admin restocks 50 units of a sweet with 10 in stock. -/
theorem restockSweet_adds_quantity_witness :
    (restockSweet sampleEnv (quantityReq 2 (.num 50) (some ⟨3, "admin"⟩))
        [restockSweetDoc]).1.status = 200
      ∧ findById (restockSweet sampleEnv (quantityReq 2 (.num 50) (some ⟨3, "admin"⟩))
          [restockSweetDoc]).2 2
        = some { restockSweetDoc with quantity := 60, updatedAt := 9 } := by
  have h0 : IsDouble (restockSweetDoc.quantity + ((50 : ℤ) : ℚ)) := by
    have h := roundDouble_intCast 60 (by norm_num)
    have e : restockSweetDoc.quantity + ((50 : ℤ) : ℚ) = ((60 : ℤ) : ℚ) := by
      simp [restockSweetDoc]; norm_num
    rw [e]
    exact ⟨h, by norm_num⟩
  have h := restockSweet_adds_quantity sampleEnv [restockSweetDoc]
    (quantityReq 2 (.num 50) (some ⟨3, "admin"⟩)) 2 restockSweetDoc 50 rfl
    (by simp [findById, restockSweetDoc])
    (by simp [SchemaOk, restockSweetDoc, categoryEnum]; norm_num) (by simp [quantityReq])
    (by norm_num) h0
  refine ⟨by rw [h.1], ?_⟩
  rw [h.2.1]
  simp [restockSweetDoc, quantityReq]
  norm_num

/-- C6, counterexample to the claim as stated: the stored quantity 9007199254740992 is an
integer (and a double) and the restock quantity 1 is an integer `≥ 1`; the restock is
answered 200, and the stored quantity stays 9007199254740992, which is not `q + 1`: the
sum is rounded to a double. -/
theorem restockSweet_rounds_large_stock :
    IsDouble 9007199254740992
      ∧ SchemaOk { restockSweetDoc with quantity := 9007199254740992 }
      ∧ (restockSweet sampleEnv (quantityReq 2 (.num 1) (some ⟨3, "admin"⟩))
          [{ restockSweetDoc with quantity := 9007199254740992 }]).1.status = 200
      ∧ (restockSweet sampleEnv (quantityReq 2 (.num 1) (some ⟨3, "admin"⟩))
          [{ restockSweetDoc with quantity := 9007199254740992 }]).2
        = [{ restockSweetDoc with quantity := 9007199254740992, updatedAt := 9 }]
      ∧ (9007199254740992 : ℚ) ≠ 9007199254740992 + 1 := by
  have hv : SchemaOk { restockSweetDoc with quantity := 9007199254740992 } := by
    simp [SchemaOk, restockSweetDoc, categoryEnum]; norm_num
  have hr : roundDouble ((9007199254740992 : ℚ) + 1) = 9007199254740992 := by
    rw [show (9007199254740992 : ℚ) + 1 = 9007199254740993 by norm_num]
    exact roundDouble_above
  have hok : SchemaOk { ({ restockSweetDoc with quantity := 9007199254740992 } : Sweet) with
      quantity := roundDouble ((9007199254740992 : ℚ) + 1) } := by
    rw [hr]
    simp [SchemaOk, restockSweetDoc, categoryEnum]; norm_num
  have hp := restockSweet_num sampleEnv
    [{ restockSweetDoc with quantity := 9007199254740992 }]
    (quantityReq 2 (.num 1) (some ⟨3, "admin"⟩)) 2
    { restockSweetDoc with quantity := 9007199254740992 } 1 rfl
    (by simp [findById, restockSweetDoc]) (jsOr_num (by norm_num)) (by norm_num) hok
  have hd : IsDouble 9007199254740992 := by
    have h := roundDouble_intCast 9007199254740992 (by norm_num)
    exact ⟨by simpa using h, by norm_num⟩
  refine ⟨hd, hv, by rw [hp], ?_, by norm_num⟩
  rw [hp]
  simp only [hr]
  simp [replaceDoc, quantityReq, restockSweetDoc]

/-- C7: for a stored sweet, a restock request with a negative quantity is answered 400 with
`success: false`, and the collection is unchanged. -/
theorem restockSweet_negative_quantity (env : JsEnv) (st : Store) (req : Req) (id : Nat)
    (s : Sweet) (n : ℚ) (hid : req.id = some id) (hs : findById st id = some s)
    (hb : req.body.quantity = .num n) (hn : n < 0) :
    restockSweet env req st
      = ({ status := 400, success := false,
           message := some "Restock quantity must be at least 1" }, st) := by
  have hn0 : n ≠ 0 := ne_of_lt hn
  have hn1 : n < 1 := by linarith
  simp [restockSweet, hid, hs, hb, jsOr, truthy, hn0, toNumber, numLt, hn1]

/-- Witness for C7: restocking -10 units. -/
theorem restockSweet_negative_quantity_witness :
    restockSweet sampleEnv (quantityReq 2 (.num (-10)) (some ⟨3, "admin"⟩)) [restockSweetDoc]
      = ({ status := 400, success := false,
           message := some "Restock quantity must be at least 1" }, [restockSweetDoc]) :=
  restockSweet_negative_quantity sampleEnv [restockSweetDoc]
    (quantityReq 2 (.num (-10)) (some ⟨3, "admin"⟩)) 2 restockSweetDoc (-10) rfl
    (by simp [findById, restockSweetDoc]) (by simp [quantityReq]) (by norm_num)

/-- C8: the code at the input of the test "should handle restock with zero quantity": an
admin restock request with `quantity: 0` on a sweet with 10 units is answered 200 and the
stored quantity becomes 11. -/
theorem restock_zero_quantity (env : JsEnv) :
    (router env .restock (quantityReq 2 (.num 0) (some ⟨3, "admin"⟩))
        [restockSweetDoc]).1.status = 200
      ∧ (router env .restock (quantityReq 2 (.num 0) (some ⟨3, "admin"⟩))
          [restockSweetDoc]).2
        = [{ restockSweetDoc with quantity := 11, updatedAt := 9 }] := by
  have hok : SchemaOk { restockSweetDoc with quantity := 11 } := by
    simp [SchemaOk, restockSweetDoc, categoryEnum]; norm_num
  have h11 : (10 : ℚ) + 1 = 11 := by norm_num
  have hr11 : roundDouble 11 = 11 := by simpa using roundDouble_intCast 11 (by norm_num)
  simp [router, routeChain, routeController, runChain, protect, authorize,
    restockSweet, quantityReq, findById, jsOr, truthy, toNumber, numLt, jsAdd,
    show restockSweetDoc._id = 2 from rfl, show restockSweetDoc.quantity = 10 from rfl,
    saveQuantity_num _ restockSweetDoc 11 9 hok, replaceDoc, h11, hr11]

/-! ## Authorization on the routes -/

/-- C9: on the routes for create, update, delete and restock, a request of an
authenticated user whose role is not `admin` is answered 403 with `success: false`
whatever controller is mounted behind the middleware (so the controller is not reached),
and the collection is unchanged. -/
theorem admin_routes_reject_other_roles (env : JsEnv) (route : Route) (req : Req)
    (st : Store) (u : User)
    (hroute : route = .create ∨ route = .update ∨ route = .delete ∨ route = .restock)
    (hc : req.credential = some u) (hr : u.role ≠ "admin") :
    (∀ ctrl : Controller, runChain (routeChain env route) ctrl req st
        = ({ status := 403, success := false,
             message := some ("User role " ++ u.role
               ++ " is not authorized to access this route") }, st))
      ∧ (router env route req st).1.status = 403
      ∧ (router env route req st).1.success = false
      ∧ (router env route req st).2 = st := by
  have key : ∀ ctrl : Controller, runChain (routeChain env route) ctrl req st
        = ({ status := 403, success := false,
             message := some ("User role " ++ u.role
               ++ " is not authorized to access this route") }, st) := by
    intro ctrl
    rcases hroute with h | h | h | h <;> subst h <;>
      simp [routeChain, runChain, protect, authorize, hc, hr]
  refine ⟨key, ?_, ?_, ?_⟩ <;> simp [router, key]

/-- Witness for C9: a plain user asks to restock. -/
theorem admin_routes_reject_other_roles_witness :
    (router sampleEnv .restock (quantityReq 2 (.num 50) (some ⟨4, "user"⟩))
        [restockSweetDoc]).1.status = 403
      ∧ (router sampleEnv .restock (quantityReq 2 (.num 50) (some ⟨4, "user"⟩))
          [restockSweetDoc]).2 = [restockSweetDoc] :=
  have h := admin_routes_reject_other_roles sampleEnv .restock
    (quantityReq 2 (.num 50) (some ⟨4, "user"⟩)) [restockSweetDoc] ⟨4, "user"⟩
    (Or.inr (Or.inr (Or.inr rfl))) rfl (by decide)
  ⟨h.2.1, h.2.2.2⟩

/-- C10: the purchase route asks for authentication but for no role.  A request without a
valid token is answered 401 with `success: false` and leaves the collection unchanged; a
request of an authenticated user, whatever the role, is served by `purchaseSweet`. -/
theorem purchase_route_needs_authentication_only (env : JsEnv) (req : Req) (st : Store) :
    (req.credential = none →
        (∀ ctrl : Controller, runChain (routeChain env .purchase) ctrl req st
          = ({ status := 401, success := false,
               message := some "Not authorized to access this route" }, st))
        ∧ router env .purchase req st
          = ({ status := 401, success := false,
               message := some "Not authorized to access this route" }, st))
      ∧ (∀ u : User, req.credential = some u →
          router env .purchase req st = purchaseSweet env { req with user := some u } st) := by
  refine ⟨fun hc => ⟨fun ctrl => ?_, ?_⟩, fun u hc => ?_⟩
  · simp [routeChain, runChain, protect, hc]
  · simp [router, routeChain, runChain, protect, hc]
  · simp [router, routeChain, routeController, runChain, protect, hc]

/-- Witness for C10: without credentials the purchase is refused and the stock stays; with
the credentials of a plain user it goes through. -/
theorem purchase_route_needs_authentication_only_witness :
    router sampleEnv .purchase (quantityReq 1 (.num 1) none) [limitedSweet]
        = ({ status := 401, success := false,
             message := some "Not authorized to access this route" }, [limitedSweet])
      ∧ router sampleEnv .purchase (quantityReq 1 (.num 1) (some ⟨4, "user"⟩)) [limitedSweet]
        = purchaseSweet sampleEnv
            { quantityReq 1 (.num 1) (some ⟨4, "user"⟩) with user := some ⟨4, "user"⟩ }
            [limitedSweet] :=
  ⟨((purchase_route_needs_authentication_only sampleEnv (quantityReq 1 (.num 1) none)
      [limitedSweet]).1 rfl).2,
   (purchase_route_needs_authentication_only sampleEnv
      (quantityReq 1 (.num 1) (some ⟨4, "user"⟩)) [limitedSweet]).2 ⟨4, "user"⟩ rfl⟩

/-! ## Non-negative price and quantity -/

theorem validateNumber_ok {label : String} {v : Option ℚ} {x : ℚ}
    (h : validateNumber label v = .ok x) : v = some x ∧ 0 ≤ x := by
  unfold validateNumber at h
  split at h
  · simp at h
  · split_ifs at h with hx
    simp only [Except.ok.injEq] at h
    subst h
    exact ⟨rfl, hx⟩

theorem validateField_number_ok {label : String} {v : Option (Option ℚ)}
    (h : validateField (validateNumber label) v = .ok ()) :
    ∀ x, v = some (some x) → 0 ≤ x := by
  intro x hx
  subst hx
  cases hv : validateNumber label (some x) with
  | error e => simp [validateField, hv] at h
  | ok y => exact (Option.some.inj (validateNumber_ok hv).1) ▸ (validateNumber_ok hv).2

/-- An update that passed the update validators sets no negative price or quantity. -/
theorem validateUpdate_ok {u : Update} (h : validateUpdate u = .ok ()) :
    (∀ x, u.price = some (some x) → 0 ≤ x) ∧ (∀ x, u.quantity = some (some x) → 0 ≤ x) := by
  unfold validateUpdate at h
  simp only [bind, Except.bind] at h
  split at h
  · simp at h
  · split at h
    · simp at h
    · split at h
      · simp at h
      · next hp =>
        exact ⟨validateField_number_ok hp, validateField_number_ok h⟩

theorem applyUpdate_nonNeg {u : Update} {s : Sweet} (hu : validateUpdate u = .ok ())
    (hs : NonNeg s) : NonNeg (applyUpdate u s) := by
  obtain ⟨hp, hq⟩ := validateUpdate_ok hu
  refine ⟨?_, ?_⟩
  · show 0 ≤ (applyUpdate u s).price
    unfold applyUpdate
    simp only
    split
    · next v hv => exact hp v hv
    · exact hs.1
  · show 0 ≤ (applyUpdate u s).quantity
    unfold applyUpdate
    simp only
    split
    · next v hv => exact hq v hv
    · exact hs.2

theorem saveQuantity_nonNeg {env : JsEnv} {st st' : Store} {sweet saved : Sweet} {v : JsVal}
    {now : Nat} (h : saveQuantity env st sweet v now = .ok (saved, st'))
    (hst : ∀ s ∈ st, NonNeg s) : ∀ s ∈ st', NonNeg s := by
  obtain ⟨x, _, hval, hsaved, hst'⟩ := saveQuantity_ok h
  have hn : NonNeg saved := by
    have := nonNeg_of_validateDoc hval
    rw [hsaved]
    exact this
  intro s hs
  rw [hst'] at hs
  rcases mem_replaceDoc hs with h | h
  · exact h ▸ hn
  · exact hst s h

theorem createDoc_nonNeg {env : JsEnv} {st st' : Store} {name category price quantity
    description image : JsVal} {createdBy now : Nat} {doc : Sweet}
    (h : createDoc env st name category price quantity description image createdBy now
      = .ok (doc, st'))
    (hst : ∀ s ∈ st, NonNeg s) : ∀ s ∈ st', NonNeg s := by
  unfold createDoc at h
  split at h
  · simp at h
  · simp at h
  · next p q _ _ =>
    simp only [bind, Except.bind] at h
    split at h
    · simp at h
    · split at h
      · simp at h
      · split at h
        · simp at h
        · next x hx =>
          split at h
          · simp at h
          · next y hy =>
            split at h
            · simp at h
            · simp only [Except.ok.injEq, Prod.mk.injEq] at h
              intro s hs
              rw [← h.2] at hs
              rcases List.mem_append.mp hs with hs | hs
              · exact hst s hs
              · rw [List.mem_singleton] at hs
                rw [hs]
                exact ⟨(validateNumber_ok hx).2, (validateNumber_ok hy).2⟩

theorem findByIdAndUpdate_nonNeg {env : JsEnv} {st st' : Store} {id : Nat} {name category
    price quantity description image : JsVal} {doc : Option Sweet}
    (h : findByIdAndUpdate env st id name category price quantity description image
      = .ok (doc, st'))
    (hst : ∀ s ∈ st, NonNeg s) : ∀ s ∈ st', NonNeg s := by
  unfold findByIdAndUpdate at h
  simp only [bind, Except.bind] at h
  split at h
  · simp at h
  · next u _ =>
    split at h
    · simp at h
    · next hu =>
      split at h
      · simp only [pure, Except.pure, Except.ok.injEq, Prod.mk.injEq] at h
        rw [← h.2]
        exact hst
      · next s hs =>
        split_ifs at h
        simp only [pure, Except.pure, Except.ok.injEq, Prod.mk.injEq] at h
        intro x hx
        rw [← h.2] at hx
        rcases mem_replaceDoc hx with hx | hx
        · rw [hx]
          exact applyUpdate_nonNeg hu (hst s (findById_mem hs))
        · exact hst x hx

theorem purchaseSweet_nonNeg (env : JsEnv) (req : Req) (st : Store)
    (hst : ∀ s ∈ st, NonNeg s) : ∀ s ∈ (purchaseSweet env req st).2, NonNeg s := by
  unfold purchaseSweet
  split
  · exact hst
  · split
    · exact hst
    · simp only
      split_ifs
      · exact hst
      · split
        · exact hst
        · next h => exact saveQuantity_nonNeg h hst

theorem restockSweet_nonNeg (env : JsEnv) (req : Req) (st : Store)
    (hst : ∀ s ∈ st, NonNeg s) : ∀ s ∈ (restockSweet env req st).2, NonNeg s := by
  unfold restockSweet
  split
  · exact hst
  · split
    · exact hst
    · simp only
      split_ifs
      · exact hst
      · split
        · exact hst
        · next h => exact saveQuantity_nonNeg h hst

theorem createSweet_nonNeg (env : JsEnv) (req : Req) (st : Store)
    (hst : ∀ s ∈ st, NonNeg s) : ∀ s ∈ (createSweet env req st).2, NonNeg s := by
  unfold createSweet
  split_ifs
  · exact hst
  · split
    · exact hst
    · simp only
      split
      · split_ifs <;> exact hst
      · next h => exact createDoc_nonNeg h hst

theorem updateSweet_nonNeg (env : JsEnv) (req : Req) (st : Store)
    (hst : ∀ s ∈ st, NonNeg s) : ∀ s ∈ (updateSweet env req st).2, NonNeg s := by
  unfold updateSweet
  split
  · exact hst
  · split
    · exact hst
    · simp only
      split
      · exact hst
      · next h => exact findByIdAndUpdate_nonNeg h hst
      · next h => exact findByIdAndUpdate_nonNeg h hst

theorem deleteSweet_nonNeg (req : Req) (st : Store)
    (hst : ∀ s ∈ st, NonNeg s) : ∀ s ∈ (deleteSweet req st).2, NonNeg s := by
  unfold deleteSweet
  split
  · exact hst
  · split
    · exact hst
    · exact fun s hs => hst s (mem_removeDoc hs)

theorem routeController_nonNeg (env : JsEnv) (route : Route) (req : Req) (st : Store)
    (hst : ∀ s ∈ st, NonNeg s) : ∀ s ∈ (routeController env route req st).2, NonNeg s := by
  cases route
  · exact createSweet_nonNeg env req st hst
  · exact updateSweet_nonNeg env req st hst
  · exact deleteSweet_nonNeg req st hst
  · exact purchaseSweet_nonNeg env req st hst
  · exact restockSweet_nonNeg env req st hst

theorem serveAll_nonNeg (env : JsEnv) (reqs : List (Route × Req)) :
    ∀ st : Store, (∀ s ∈ st, NonNeg s) → ∀ s ∈ serveAll env reqs st, NonNeg s := by
  induction reqs with
  | nil => exact fun st hst => hst
  | cons r rest ih =>
    intro st hst
    obtain ⟨route, req⟩ := r
    exact ih _ (routeController_nonNeg env route req st hst)

/-- C5: if every stored sweet has price ≥ 0 and quantity ≥ 0, then so has every stored
sweet after one call of `createSweet`, `updateSweet`, `deleteSweet`, `purchaseSweet` or
`restockSweet` on an arbitrary request, and hence after any sequence of such calls. -/
theorem controllers_keep_price_and_quantity_nonneg (env : JsEnv) :
    (∀ (route : Route) (req : Req) (st : Store),
        (∀ s ∈ st, 0 ≤ s.price ∧ 0 ≤ s.quantity) →
        ∀ s ∈ (routeController env route req st).2, 0 ≤ s.price ∧ 0 ≤ s.quantity)
      ∧ (∀ (reqs : List (Route × Req)) (st : Store),
        (∀ s ∈ st, 0 ≤ s.price ∧ 0 ≤ s.quantity) →
        ∀ s ∈ serveAll env reqs st, 0 ≤ s.price ∧ 0 ≤ s.quantity) :=
  ⟨fun route req st hst => routeController_nonNeg env route req st hst,
   fun reqs st hst => serveAll_nonNeg env reqs st hst⟩

/-- Witness for C5: an update that asks for a negative price, then a purchase of -1 units
and a restock, on a collection with one valid sweet. -/
theorem controllers_keep_price_and_quantity_nonneg_witness :
    (∀ s ∈ (routeController sampleEnv .update
          { id := some 1, body := { price := .num (-2) } } [limitedSweet]).2,
        0 ≤ s.price ∧ 0 ≤ s.quantity)
      ∧ (∀ s ∈ serveAll sampleEnv
          [(.update, { id := some 1, body := { quantity := .num (-3) } }),
           (.purchase, quantityReq 1 (.num (-1)) none),
           (.restock, quantityReq 1 (.str "x") none)] [limitedSweet],
        0 ≤ s.price ∧ 0 ≤ s.quantity) := by
  have hst : ∀ s ∈ [limitedSweet], 0 ≤ s.price ∧ 0 ≤ s.quantity := by
    intro s hs
    rw [List.mem_singleton] at hs
    subst hs
    simp [limitedSweet]
    norm_num
  exact ⟨(controllers_keep_price_and_quantity_nonneg sampleEnv).1 _ _ _ hst,
    (controllers_keep_price_and_quantity_nonneg sampleEnv).2 _ _ hst⟩

/-! ## Create -/

/-- The outcome of `Sweet.create` on values that pass the schema, for a name that no stored
sweet has. -/
theorem createDoc_fresh (env : JsEnv) (st : Store) (t c : String) (p q : ℚ)
    (d i : JsVal) (createdBy now : Nat) (ht : env.trim t = t) (hne : t ≠ "")
    (hc : c ∈ categoryEnum) (hp : 0 ≤ p) (hq : 0 ≤ q) (hfresh : ∀ s ∈ st, s.name ≠ t) :
    createDoc env st (.str t) (.str c) (.num p) (.num q) d i createdBy now
      = .ok (createdDoc env st t c p q d i createdBy now,
             st ++ [createdDoc env st t c p q d i createdBy now]) := by
  have hc0 := ne_empty_of_mem_categoryEnum hc
  have hany : ¬ (st.any (fun s => decide (s.name = t)) = true) := by
    simpa using hfresh
  simp [createDoc, createdDoc, castNumber, castString, toStr, validateName,
    validateCategory, validateNumber, bind, Except.bind, ht, hne, hc, hc0, hp, hq, hany]

/-- The outcome of `Sweet.create` on values that pass the schema, for a name that a stored
sweet already has. -/
theorem createDoc_duplicate (env : JsEnv) (st : Store) (t c : String) (p q : ℚ)
    (d i : JsVal) (createdBy now : Nat) (ht : env.trim t = t) (hne : t ≠ "")
    (hc : c ∈ categoryEnum) (hp : 0 ≤ p) (hq : 0 ≤ q) (hdup : ∃ s ∈ st, s.name = t) :
    createDoc env st (.str t) (.str c) (.num p) (.num q) d i createdBy now
      = .error .duplicateKey := by
  have hc0 := ne_empty_of_mem_categoryEnum hc
  have hany : st.any (fun s => decide (s.name = t)) = true := by
    simpa using hdup
  simp [createDoc, castNumber, castString, toStr, validateName, validateCategory,
    validateNumber, bind, Except.bind, ht, hne, hc, hc0, hp, hq, hany]

/-- What the create route does with a request of an admin: the validation chains run and
the controller sees the trimmed name. -/
theorem router_create_admin (env : JsEnv) (req : Req) (st : Store) (admin : User)
    (hc : req.credential = some admin) (hr : admin.role = "admin") :
    router env .create req st
      = match sweetValidation env { req with user := some admin } with
        | .next req' => createSweet env req' st
        | .done res => (res, st) := by
  simp [router, routeChain, routeController, runChain, protect, authorize, hc, hr]

/-- The validation chains accept a request with a non-blank name, a non-empty category, a
price that is a number ≥ 0 and a quantity that is an integer ≥ 0 and below `10 ^ 21`, and
hand on the request with the name trimmed. -/
theorem sweetValidation_pass (env : JsEnv) (req : Req) (nm c : String) (p : ℚ) (n : ℤ)
    (hv : req.validationErrors = []) (hname : req.body.name = .str nm)
    (hblank : env.trim nm ≠ "") (hcat : req.body.category = .str c) (hc0 : c ≠ "")
    (hprice : req.body.price = .num p) (hp : 0 ≤ p)
    (hq : req.body.quantity = .num (n : ℚ)) (hn : 0 ≤ n) (hlt : n < 10 ^ 21) :
    sweetValidation env req
      = .next { req with body := { req.body with name := .str (env.trim nm) } } := by
  have hn' : (0 : ℚ) ≤ (n : ℚ) := by exact_mod_cast hn
  have hlt' : (n : ℚ) < 10 ^ 21 := by exact_mod_cast hlt
  simp [sweetValidation, validatorString, toStr, isFloatMin0, isIntMin0, hv, hname, hblank,
    hcat, hc0, hprice, hp, hq, hn', hlt']

/-- C11 (as amended): for an admin create request whose trimmed name is non-empty and
not the name of a stored sweet, whose category is one of the seven enum values, whose
price is a number ≥ 0 and whose quantity is an integer ≥ 0 and below `10 ^ 21`, the create
route responds 201 with `success: true`; the returned document carries the trimmed name and
the submitted category, price and quantity, and it is appended to the collection. -/
theorem create_valid_sweet (env : JsEnv) (req : Req) (st : Store) (admin : User)
    (nm c : String) (p : ℚ) (n : ℤ)
    (htrim : env.trim (env.trim nm) = env.trim nm)
    (hc : req.credential = some admin) (hr : admin.role = "admin")
    (hv : req.validationErrors = []) (hname : req.body.name = .str nm)
    (hblank : env.trim nm ≠ "") (hfresh : ∀ s ∈ st, s.name ≠ env.trim nm)
    (hcat : req.body.category = .str c) (hcmem : c ∈ categoryEnum)
    (hprice : req.body.price = .num p) (hp : 0 ≤ p)
    (hq : req.body.quantity = .num (n : ℚ)) (hn : 0 ≤ n) (hlt : n < 10 ^ 21) :
    router env .create req st
        = ({ status := 201, success := true,
             data := .sweet (createdDoc env st (env.trim nm) c p n req.body.description
               req.body.image admin.id req.now) },
           st ++ [createdDoc env st (env.trim nm) c p n req.body.description
               req.body.image admin.id req.now])
      ∧ (createdDoc env st (env.trim nm) c p n req.body.description req.body.image
          admin.id req.now).name = env.trim nm
      ∧ (createdDoc env st (env.trim nm) c p n req.body.description req.body.image
          admin.id req.now).category = c := by
  have hn' : (0 : ℚ) ≤ (n : ℚ) := by exact_mod_cast hn
  have hval := sweetValidation_pass env { req with user := some admin } nm c p n hv hname
    hblank hcat (ne_empty_of_mem_categoryEnum hcmem) hprice hp hq hn hlt
  refine ⟨?_, rfl, rfl⟩
  rw [router_create_admin env req st admin hc hr, hval]
  simp [createSweet, hv, hcat, hprice, hq,
    createDoc_fresh env st (env.trim nm) c p n req.body.description req.body.image admin.id
      req.now htrim hblank hcmem hp hn' hfresh]

/-- Witness for C11: the admin creates "Chocolate Bar" in an empty collection. -/
theorem create_valid_sweet_witness :
    (router sampleEnv .create
        (createReq (.str "Chocolate Bar") (.str "Chocolate") (.num (299 / 100)) (.num 100))
        []).1.status = 201
      ∧ (router sampleEnv .create
        (createReq (.str "Chocolate Bar") (.str "Chocolate") (.num (299 / 100)) (.num 100))
        []).2
        = [createdDoc sampleEnv [] "Chocolate Bar" "Chocolate" (299 / 100) 100 .undefined
            .undefined 3 9] := by
  have ht : sampleEnv.trim "Chocolate Bar" = "Chocolate Bar" := by decide
  have h := create_valid_sweet sampleEnv
    (createReq (.str "Chocolate Bar") (.str "Chocolate") (.num (299 / 100)) (.num 100)) []
    adminUser "Chocolate Bar" "Chocolate" (299 / 100) 100 (by rw [ht, ht]) rfl rfl rfl rfl
    (by rw [ht]; decide) (by simp) rfl (by simp [categoryEnum]) rfl (by norm_num)
    (by simp [createReq]) (by norm_num) (by norm_num)
  rw [ht] at h
  refine ⟨by rw [h.1], ?_⟩
  rw [h.1]
  simp [createReq, adminUser]

/-- C11, counterexample to the claim as stated: the submitted name " Fudge " is non-blank
and unused and the other fields are valid, the answer is 201, yet the returned document
carries the name "Fudge", not the submitted one; and with the name "Fudge" and the
quantity `10 ^ 21`, an integer `≥ 0`, the answer is 400 and nothing is stored. -/
theorem create_does_not_echo_untrimmed_name :
    (router sampleEnv .create
        (createReq (.str " Fudge ") (.str "Candy") (.num 2) (.num 3)) []).1
        = { status := 201, success := true,
            data := .sweet (createdDoc sampleEnv [] "Fudge" "Candy" 2 3 .undefined
              .undefined 3 9) }
      ∧ (createdDoc sampleEnv [] "Fudge" "Candy" 2 3 .undefined .undefined 3 9).name
        ≠ " Fudge "
      ∧ (router sampleEnv .create
          (createReq (.str "Fudge") (.str "Candy") (.num 2)
            (.num 1000000000000000000000)) []).1.status = 400
      ∧ (router sampleEnv .create
          (createReq (.str "Fudge") (.str "Candy") (.num 2)
            (.num 1000000000000000000000)) []).2 = [] := by
  have ht : sampleEnv.trim " Fudge " = "Fudge" := by decide
  have ht2 : sampleEnv.trim "Fudge" = "Fudge" := by decide
  have hval := sweetValidation_pass sampleEnv
    { createReq (.str " Fudge ") (.str "Candy") (.num 2) (.num 3) with
      user := some adminUser } " Fudge " "Candy" 2 3 rfl rfl (by rw [ht]; decide) rfl
    (by decide) rfl (by norm_num) (by simp [createReq]) (by norm_num) (by norm_num)
  have hbig : isIntMin0 sampleEnv (.num 1000000000000000000000) = false := by
    simp [isIntMin0]
    norm_num
  have h400 : router sampleEnv .create
      (createReq (.str "Fudge") (.str "Candy") (.num 2) (.num 1000000000000000000000)) []
      = ({ status := 400, success := false,
           errors := ["Quantity must be a non-negative integer"] }, []) := by
    rw [router_create_admin sampleEnv _ [] adminUser rfl rfl]
    simp [sweetValidation, createSweet, createReq, hbig, validatorString, toStr, ht2,
      isFloatMin0]
  refine ⟨?_, by simp [createdDoc], by rw [h400], by rw [h400]⟩
  rw [router_create_admin sampleEnv _ [] adminUser rfl rfl, hval, ht]
  have hdoc := createDoc_fresh sampleEnv [] "Fudge" "Candy" 2 3 .undefined .undefined 3 9
    ht2 (by decide) (by simp [categoryEnum]) (by norm_num) (by norm_num) (by simp)
  simp [createSweet, createReq, adminUser, hdoc]

/-- C12: an admin create request whose price is negative, or whose quantity is negative
(either of them a number, or a string that validator.js reads as a negative number), or
whose name is missing or blank (the trimmed text of the field is empty) is answered 400
with `success: false`, and the collection is unchanged. -/
theorem create_rejects_invalid_fields (env : JsEnv) (req : Req) (st : Store) (admin : User)
    (hc : req.credential = some admin) (hr : admin.role = "admin")
    (h : (∃ p : ℚ, req.body.price = .num p ∧ p < 0)
      ∨ (∃ q : ℚ, req.body.quantity = .num q ∧ q < 0)
      ∨ env.trim (validatorString env req.body.name) = ""
      ∨ (∃ t p, req.body.price = .str t ∧ env.floatLit t = some p ∧ p < 0)
      ∨ (∃ t q, req.body.quantity = .str t ∧ env.intLit t = some q ∧ q < 0)) :
    (router env .create req st).1.status = 400
      ∧ (router env .create req st).1.success = false
      ∧ (router env .create req st).1.data = .none
      ∧ (router env .create req st).2 = st := by
  rw [router_create_admin env req st admin hc hr]
  rcases h with ⟨p, hp, hneg⟩ | ⟨q, hq, hneg⟩ | hname | ⟨t, p, hp, hlit, hneg⟩
    | ⟨t, q, hq, hlit, hneg⟩
  · have hnp : ¬ (0 ≤ p) := not_le.mpr hneg
    simp [sweetValidation, createSweet, isFloatMin0, hp, hnp]
  · have hnq : ¬ (0 ≤ q) := not_le.mpr hneg
    simp [sweetValidation, createSweet, isIntMin0, hq, hnq]
  · simp [sweetValidation, createSweet, hname]
  · have hnp : ¬ (0 ≤ p) := not_le.mpr hneg
    simp [sweetValidation, createSweet, isFloatMin0, hp, hlit, hnp]
  · have hnq : ¬ (0 ≤ q) := not_le.mpr hneg
    simp [sweetValidation, createSweet, isIntMin0, hq, hlit, hnq]

/-- Witness for C12: a request without a name. -/
theorem create_rejects_invalid_fields_witness :
    (router sampleEnv .create
        (createReq .undefined (.str "Chocolate") (.num (599 / 100)) (.num 10))
        [limitedSweet]).1.status = 400
      ∧ (router sampleEnv .create
        (createReq .undefined (.str "Chocolate") (.num (599 / 100)) (.num 10))
        [limitedSweet]).2 = [limitedSweet] :=
  have h := create_rejects_invalid_fields sampleEnv
    (createReq .undefined (.str "Chocolate") (.num (599 / 100)) (.num 10)) [limitedSweet]
    adminUser rfl rfl (Or.inr (Or.inr (Or.inl (by decide))))
  ⟨h.1, h.2.2.2⟩

/-- C13: the code at the input of the test "should reject invalid category": the request
passes the validation chains, the schema rejects the category on `Sweet.create`, and the
generic `catch` branch answers 500 (not 400); no sweet is stored. -/
theorem create_invalid_category_is_500 :
    (router sampleEnv .create
        (createReq (.str "Test Sweet") (.str "InvalidCategory") (.num (599 / 100))
          (.num 10)) []).1.status = 500
      ∧ (router sampleEnv .create
        (createReq (.str "Test Sweet") (.str "InvalidCategory") (.num (599 / 100))
          (.num 10)) []).1.success = false
      ∧ (router sampleEnv .create
        (createReq (.str "Test Sweet") (.str "InvalidCategory") (.num (599 / 100))
          (.num 10)) []).2 = [] := by
  have ht : sampleEnv.trim "Test Sweet" = "Test Sweet" := by decide
  have hval := sweetValidation_pass sampleEnv
    { createReq (.str "Test Sweet") (.str "InvalidCategory") (.num (599 / 100)) (.num 10)
      with user := some adminUser } "Test Sweet" "InvalidCategory" (599 / 100) 10 rfl rfl
    (by rw [ht]; decide) rfl (by decide) rfl (by norm_num) (by simp [createReq])
    (by norm_num) (by norm_num)
  rw [router_create_admin sampleEnv _ [] adminUser rfl rfl, hval, ht]
  have hcat : ¬ ("InvalidCategory" ∈ categoryEnum) := by decide
  simp [createSweet, createReq, adminUser, createDoc, castNumber, castString, toStr,
    validateName, validateCategory, bind, Except.bind, ht, hcat, DbError.code, serverError]

/-- C14: an admin create request with valid fields (the quantity that the validation
accepts is an integer `≥ 0` and below `10 ^ 21`) whose (trimmed) name is the name of a
stored sweet is answered 400 with `success: false` and the message
"A sweet with this name already exists", and the collection is unchanged. -/
theorem create_duplicate_name (env : JsEnv) (req : Req) (st : Store) (admin : User)
    (nm c : String) (p : ℚ) (n : ℤ)
    (htrim : env.trim (env.trim nm) = env.trim nm)
    (hc : req.credential = some admin) (hr : admin.role = "admin")
    (hv : req.validationErrors = []) (hname : req.body.name = .str nm)
    (hblank : env.trim nm ≠ "") (hdup : ∃ s ∈ st, s.name = env.trim nm)
    (hcat : req.body.category = .str c) (hcmem : c ∈ categoryEnum)
    (hprice : req.body.price = .num p) (hp : 0 ≤ p)
    (hq : req.body.quantity = .num (n : ℚ)) (hn : 0 ≤ n) (hlt : n < 10 ^ 21) :
    router env .create req st
      = ({ status := 400, success := false,
           message := some "A sweet with this name already exists" }, st) := by
  have hn' : (0 : ℚ) ≤ (n : ℚ) := by exact_mod_cast hn
  have hval := sweetValidation_pass env { req with user := some admin } nm c p n hv hname
    hblank hcat (ne_empty_of_mem_categoryEnum hcmem) hprice hp hq hn hlt
  rw [router_create_admin env req st admin hc hr, hval]
  simp [createSweet, hv, hcat, hprice, hq, DbError.code,
    createDoc_duplicate env st (env.trim nm) c p n req.body.description req.body.image
      admin.id req.now htrim hblank hcmem hp hn' hdup]

/-- Witness for C14: creating a second "Limited Sweet". -/
theorem create_duplicate_name_witness :
    router sampleEnv .create
        (createReq (.str "Limited Sweet") (.str "Candy") (.num (399 / 100)) (.num 20))
        [limitedSweet]
      = ({ status := 400, success := false,
           message := some "A sweet with this name already exists" }, [limitedSweet]) :=
  have ht : sampleEnv.trim "Limited Sweet" = "Limited Sweet" := by decide
  create_duplicate_name sampleEnv
    (createReq (.str "Limited Sweet") (.str "Candy") (.num (399 / 100)) (.num 20))
    [limitedSweet] adminUser "Limited Sweet" "Candy" (399 / 100) 20 (by rw [ht, ht]) rfl rfl
    rfl rfl (by rw [ht]; decide) ⟨limitedSweet, by simp, by rw [ht]; rfl⟩ rfl
    (by simp [categoryEnum]) rfl (by norm_num) (by simp [createReq]) (by norm_num)
    (by norm_num)

/-! ## Unique names -/

theorem namesDistinct_replaceDoc {doc : Sweet} {st : Store} (hst : NamesDistinct st)
    (hdoc : ∀ o ∈ removeDoc doc._id st, o.name ≠ doc.name) :
    NamesDistinct (replaceDoc doc st) := by
  induction st with
  | nil => simp [replaceDoc, NamesDistinct]
  | cons a rest ih =>
    unfold NamesDistinct at hst
    rw [List.pairwise_cons] at hst
    unfold replaceDoc
    unfold removeDoc at hdoc
    by_cases ha : a._id = doc._id
    · rw [if_pos ha] at hdoc
      rw [if_pos ha]
      unfold NamesDistinct
      rw [List.pairwise_cons]
      exact ⟨fun o ho h => hdoc o ho h.symm, hst.2⟩
    · rw [if_neg ha] at hdoc
      rw [if_neg ha]
      unfold NamesDistinct
      rw [List.pairwise_cons]
      refine ⟨fun o ho => ?_, ih hst.2 (fun o ho => hdoc o (List.mem_cons_of_mem _ ho))⟩
      rcases mem_replaceDoc ho with h | h
      · rw [h]
        exact hdoc a (List.mem_cons_self _ _)
      · exact hst.1 o h

theorem name_ne_of_mem_removeDoc {st : Store} {id : Nat} {s : Sweet}
    (hst : NamesDistinct st) (hs : findById st id = some s) :
    ∀ o ∈ removeDoc id st, o.name ≠ s.name := by
  induction st with
  | nil => simp [findById] at hs
  | cons a rest ih =>
    unfold NamesDistinct at hst
    rw [List.pairwise_cons] at hst
    unfold removeDoc
    by_cases ha : a._id = id
    · have hsa : s = a := by
        simpa [findById, List.find?_cons, ha] using hs.symm
      rw [if_pos ha, hsa]
      exact fun o ho h => hst.1 o ho h.symm
    · have hs2 : findById rest id = some s := by
        simpa [findById, List.find?_cons, ha] using hs
      rw [if_neg ha]
      intro o ho
      rcases List.mem_cons.mp ho with h | h
      · rw [h]
        exact hst.1 s (findById_mem hs2)
      · exact ih hst.2 hs2 o h

theorem applyUpdate_id (u : Update) (s : Sweet) : (applyUpdate u s)._id = s._id := rfl

theorem createDoc_namesDistinct {env : JsEnv} {st st' : Store} {name category price quantity
    description image : JsVal} {createdBy now : Nat} {doc : Sweet}
    (h : createDoc env st name category price quantity description image createdBy now
      = .ok (doc, st'))
    (hst : NamesDistinct st) : NamesDistinct st' := by
  unfold createDoc at h
  split at h
  · simp at h
  · simp at h
  · simp only [bind, Except.bind] at h
    split at h
    · simp at h
    · split at h
      · simp at h
      · split at h
        · simp at h
        · split at h
          · simp at h
          · split at h
            · simp at h
            · next hany =>
              simp only [Except.ok.injEq, Prod.mk.injEq] at h
              rw [← h.2]
              unfold NamesDistinct
              rw [List.pairwise_append]
              refine ⟨hst, List.pairwise_singleton _ _, ?_⟩
              intro a ha b hb
              rw [List.mem_singleton] at hb
              rw [hb]
              simp only [List.any_eq_true, decide_eq_true_eq, not_exists, not_and] at hany
              exact hany a ha

theorem findByIdAndUpdate_namesDistinct {env : JsEnv} {st st' : Store} {id : Nat}
    {name category price quantity description image : JsVal} {doc : Option Sweet}
    (h : findByIdAndUpdate env st id name category price quantity description image
      = .ok (doc, st'))
    (hst : NamesDistinct st) : NamesDistinct st' := by
  unfold findByIdAndUpdate at h
  simp only [bind, Except.bind] at h
  split at h
  · simp at h
  · next u _ =>
    split at h
    · simp at h
    · split at h
      · simp only [pure, Except.pure, Except.ok.injEq, Prod.mk.injEq] at h
        rw [← h.2]
        exact hst
      · next s hs =>
        split_ifs at h with hdup
        simp only [pure, Except.pure, Except.ok.injEq, Prod.mk.injEq] at h
        rw [← h.2]
        have hid : (applyUpdate u s)._id = id := by
          rw [applyUpdate_id]
          exact findById_id hs
        apply namesDistinct_replaceDoc hst
        rw [hid]
        intro o ho
        by_cases hname : (applyUpdate u s).name = s.name
        · rw [hname]
          exact name_ne_of_mem_removeDoc hst hs o ho
        · intro hon
          apply hdup
          refine ⟨?_, hname⟩
          simp only [List.any_eq_true, decide_eq_true_eq]
          exact ⟨o, ho, hon⟩

/-- C15: starting from a collection in which no two sweets share a name, after a call of
`createSweet` or of `updateSweet` on an arbitrary request, whether it succeeds or fails, no
two stored sweets share a name. -/
theorem create_update_keep_names_distinct (env : JsEnv) (req : Req) (st : Store)
    (hst : NamesDistinct st) :
    NamesDistinct (createSweet env req st).2 ∧ NamesDistinct (updateSweet env req st).2 := by
  constructor
  · unfold createSweet
    split_ifs
    · exact hst
    · split
      · exact hst
      · simp only
        split
        · split_ifs <;> exact hst
        · next h => exact createDoc_namesDistinct h hst
  · unfold updateSweet
    split
    · exact hst
    · split
      · exact hst
      · simp only
        split
        · exact hst
        · next h => exact findByIdAndUpdate_namesDistinct h hst
        · next h => exact findByIdAndUpdate_namesDistinct h hst

/-- Witness for C15: renaming one of two sweets to the name of the other fails and leaves
the names distinct, and so does creating a third sweet. -/
theorem create_update_keep_names_distinct_witness :
    NamesDistinct (createSweet sampleEnv
        (createReq (.str "Limited Sweet") (.str "Candy") (.num 1) (.num 1))
        [limitedSweet, restockSweetDoc]).2
      ∧ NamesDistinct (updateSweet sampleEnv
        { id := some 1, body := { name := .str "Restock Sweet" } }
        [limitedSweet, restockSweetDoc]).2 :=
  have hst : NamesDistinct [limitedSweet, restockSweetDoc] := by
    simp [NamesDistinct, limitedSweet, restockSweetDoc]
  ⟨(create_update_keep_names_distinct sampleEnv _ _ hst).1,
   (create_update_keep_names_distinct sampleEnv _ _ hst).2⟩

/-! ## Search -/

theorem parsePattern_literal (l : List Char) (h : ∀ c ∈ l, c ∉ regexMeta) :
    parsePattern l = some (l.map PatItem.lit) := by
  induction l with
  | nil => rfl
  | cons c rest ih =>
    have hc : c ∉ regexMeta := h c (List.mem_cons_self _ _)
    have hdot : c ≠ '.' := by
      rintro rfl
      exact hc (by decide)
    have ih' := ih (fun d hd => h d (List.mem_cons_of_mem _ hd))
    simp [parsePattern, hdot, hc, ih']

theorem matchesAt_literal (env : JsEnv) (l : List Char) :
    ∀ d : List Char, matchesAt env (l.map PatItem.lit) d = true
      ↔ l.map env.regexFold <+: d.map env.regexFold := by
  induction l with
  | nil => intro d; simp [matchesAt]
  | cons c rest ih =>
    intro d
    cases d with
    | nil => simp [matchesAt]
    | cons x xs =>
      simp only [List.map_cons, matchesAt, itemMatches, Bool.and_eq_true, beq_iff_eq,
        List.cons_prefix_cons]
      rw [ih xs]

theorem searchIn_literal (env : JsEnv) (l : List Char) :
    ∀ d : List Char, searchIn env (l.map PatItem.lit) d = true
      ↔ l.map env.regexFold <:+: d.map env.regexFold := by
  intro d
  induction d with
  | nil =>
    unfold searchIn
    rw [matchesAt_literal]
    simp
  | cons x xs ih =>
    unfold searchIn
    rw [Bool.or_eq_true, matchesAt_literal, ih, List.map_cons, List.infix_cons_iff]

/-- On a pattern of literal characters the regular-expression test is the substring test
of the specification. -/
theorem regexTest_literal (env : JsEnv) (s : String) (h : ∀ c ∈ s.toList, c ∉ regexMeta) :
    ∃ test, regexTest env s = some test
      ∧ ∀ name, test name = decide (containsIgnoreCase env.regexFold s name) := by
  refine ⟨fun subject => searchIn env (s.toList.map PatItem.lit) subject.toList, ?_, ?_⟩
  · unfold regexTest
    rw [parsePattern_literal s.toList h]
  · intro name
    rw [Bool.eq_iff_iff, searchIn_literal]
    simp [containsIgnoreCase]

/-- C16 (as amended): for a non-empty name query `s` made of characters without a special
meaning in regular expressions, `searchSweets` responds 200 with exactly the stored sweets
whose name contains `s` as a substring, letter case ignored (as the regular-expression
engine folds it), in collection order, and with their number as `count` (an empty array
and 0 when there is none). -/
theorem search_by_literal_name (env : JsEnv) (req : Req) (st : Store) (s : String)
    (hq : req.query = { name := some s }) (hs : s ≠ "")
    (hlit : ∀ c ∈ s.toList, c ∉ regexMeta) :
    searchSweets env req st
      = ({ status := 200, success := true,
           count := some (st.filter
             (fun x => decide (containsIgnoreCase env.regexFold s x.name))).length,
           data := .sweets (st.filter
             (fun x => decide (containsIgnoreCase env.regexFold s x.name))) },
         st) := by
  obtain ⟨test, htest, hspec⟩ := regexTest_literal env s hlit
  have hfilter : st.filter (fun x => test x.name)
      = st.filter (fun x => decide (containsIgnoreCase env.regexFold s x.name)) :=
    List.filter_congr (fun x _ => hspec x.name)
  simp [searchSweets, hq, given, hs, find, castBound, nameTest, htest, bind, Except.bind,
    hfilter]

/-- Witness for C16: the query "LIMIT" finds "Limited Sweet" and not "Restock Sweet". -/
theorem search_by_literal_name_witness :
    searchSweets sampleEnv { query := { name := some "LIMIT" } }
        [limitedSweet, restockSweetDoc]
      = ({ status := 200, success := true, count := some 1,
           data := .sweets [limitedSweet] }, [limitedSweet, restockSweetDoc]) := by
  have h := search_by_literal_name sampleEnv { query := { name := some "LIMIT" } }
    [limitedSweet, restockSweetDoc] "LIMIT" rfl (by decide) (by decide)
  have h1 : containsIgnoreCase sampleEnv.regexFold "LIMIT" limitedSweet.name := by decide
  have h2 : ¬ containsIgnoreCase sampleEnv.regexFold "LIMIT" restockSweetDoc.name := by
    decide
  rw [h]
  simp [List.filter, h1, h2]

/-- C16, counterexample to the claim as stated: the query "." is a non-empty string, the
name "Limited Sweet" has no dot in it and so does not contain the query, and yet
`searchSweets` returns that sweet, since the query is used as a regular expression. -/
theorem search_name_is_a_regex :
    searchSweets sampleEnv { query := { name := some "." } } [limitedSweet]
        = ({ status := 200, success := true, count := some 1,
             data := .sweets [limitedSweet] }, [limitedSweet])
      ∧ '.' ∉ limitedSweet.name.toList
      ∧ ¬ containsIgnoreCase sampleEnv.regexFold "." limitedSweet.name := by
  refine ⟨?_, by decide, by decide⟩
  have hp : regexTest sampleEnv "."
      = some (fun subject => searchIn sampleEnv [PatItem.any] subject.toList) := by
    unfold regexTest
    rw [show parsePattern ".".toList = some [PatItem.any] by decide]
  have hm : searchIn sampleEnv [PatItem.any] limitedSweet.name.data = true := by decide
  simp [searchSweets, given, find, castBound, nameTest, hp, hm, bind, Except.bind,
    List.filter]

/-- The result of `find` on a filter without name pattern whose price bounds are
numbers: the sweets that meet the filters, in collection order. -/
theorem find_category_price (env : JsEnv) (st : Store) (cat : Option String)
    (lo hi : Option ℚ) :
    find env st { category := cat, gte := lo.map some, lte := hi.map some }
      = .ok (st.filter (fun s => decide (MeetsFilters cat lo hi s))) := by
  have key : st.filter (fun s =>
        (match cat with
          | none => true
          | some c => decide (s.category = c))
        && (match lo with
          | none => true
          | some b => decide (b ≤ s.price))
        && (match hi with
          | none => true
          | some b => decide (s.price ≤ b)))
      = st.filter (fun s => decide (MeetsFilters cat lo hi s)) := by
    apply List.filter_congr
    intro s _
    rw [Bool.eq_iff_iff]
    cases cat <;> cases lo <;> cases hi <;> simp [MeetsFilters, and_assoc]
  rw [← key]
  cases lo <;> cases hi <;> simp [find, castBound, nameTest, bind, Except.bind]

/-- The filter that `searchSweets` builds from the parameters `category`, `minPrice` and
`maxPrice` when each of them is omitted or a non-empty string, the prices numeric. -/
theorem searchSweets_filter (env : JsEnv) (req : Req) (st : Store)
    (cat mn mx : Option String)
    (hq : req.query = { category := cat, minPrice := mn, maxPrice := mx })
    (hcat : ∀ c, cat = some c → c ≠ "")
    (hmn : ∀ t, mn = some t → t ≠ "" ∧ (env.parseFloat t).isSome)
    (hmx : ∀ t, mx = some t → t ≠ "" ∧ (env.parseFloat t).isSome) :
    searchSweets env req st
      = match find env st
            { category := cat, gte := (mn.bind env.parseFloat).map some,
              lte := (mx.bind env.parseFloat).map some } with
        | .error e => (serverError e.message, st)
        | .ok sweets =>
          ({ status := 200, success := true, count := some sweets.length,
             data := .sweets sweets }, st) := by
  have hcat' : (if given cat = true then ({ category := cat } : Filter) else {})
      = { category := cat } := by
    cases cat with
    | none => simp
    | some c => simp [given, hcat c rfl]
  have hbound : ∀ o : Option String, (∀ t, o = some t → t ≠ "" ∧ (env.parseFloat t).isSome) →
      (if given o = true then o.map env.parseFloat else none)
        = (o.bind env.parseFloat).map some := by
    intro o ho
    cases o with
    | none => simp [given]
    | some t =>
      obtain ⟨ht, hp⟩ := ho t rfl
      obtain ⟨x, hx⟩ := Option.isSome_iff_exists.mp hp
      simp [given, ht, hx]
  have hnone : ∀ o : Option String, (∀ t, o = some t → t ≠ "" ∧ (env.parseFloat t).isSome) →
      given o = false → (o.bind env.parseFloat).map some = none := by
    intro o ho hg
    cases o with
    | none => rfl
    | some t => simp [given, (ho t rfl).1] at hg
  have hgn : given (none : Option String) = false := rfl
  unfold searchSweets
  simp only [hq, hgn, Bool.false_eq_true, if_false, hcat']
  by_cases hg : (given mn || given mx) = true
  · rw [if_pos hg, hbound mn hmn, hbound mx hmx]
  · rw [if_neg hg]
    simp only [Bool.or_eq_true, not_or, Bool.not_eq_true] at hg
    rw [hnone mn hmn hg.1, hnone mx hmx hg.2]

/-- C17: for every combination of the filters `category` (a non-empty string), `minPrice`
and `maxPrice` (non-empty strings that `parseFloat` reads as numbers), each supplied or
omitted, `searchSweets` responds 200 with exactly the stored sweets that have the given
category, a price at least the minimum and a price at most the maximum; an omitted filter
imposes no restriction, and `count` is the number of sweets returned. -/
theorem search_by_category_and_price (env : JsEnv) (req : Req) (st : Store)
    (cat mn mx : Option String)
    (hq : req.query = { category := cat, minPrice := mn, maxPrice := mx })
    (hcat : ∀ c, cat = some c → c ≠ "")
    (hmn : ∀ t, mn = some t → t ≠ "" ∧ (env.parseFloat t).isSome)
    (hmx : ∀ t, mx = some t → t ≠ "" ∧ (env.parseFloat t).isSome) :
    searchSweets env req st
      = ({ status := 200, success := true,
           count := some (st.filter (fun s => decide (MeetsFilters cat
             (mn.bind env.parseFloat) (mx.bind env.parseFloat) s))).length,
           data := .sweets (st.filter (fun s => decide (MeetsFilters cat
             (mn.bind env.parseFloat) (mx.bind env.parseFloat) s))) },
         st) := by
  rw [searchSweets_filter env req st cat mn mx hq hcat hmn hmx, find_category_price]

/-- Witness for C17: category "Candy" with prices between 1 and 3 keeps both test sweets;
a minimum of 2 keeps none of them. -/
theorem search_by_category_and_price_witness :
    searchSweets sampleEnv
        { query := { category := some "Candy", minPrice := some "1", maxPrice := some "3" } }
        [limitedSweet, restockSweetDoc]
      = ({ status := 200, success := true, count := some 2,
           data := .sweets [limitedSweet, restockSweetDoc] },
         [limitedSweet, restockSweetDoc]) := by
  have h := search_by_category_and_price sampleEnv
    { query := { category := some "Candy", minPrice := some "1", maxPrice := some "3" } }
    [limitedSweet, restockSweetDoc] (some "Candy") (some "1") (some "3") rfl
    (by simp) (by simp; decide) (by simp; decide)
  have h1 : sampleEnv.parseFloat "1" = some 1 := by
    simp [sampleEnv, digitsValue]
  have h3 : sampleEnv.parseFloat "3" = some 3 := by
    simp [sampleEnv, digitsValue]
  have hm1 : MeetsFilters (some "Candy") (some 1) (some 3) limitedSweet := by
    simp [MeetsFilters, limitedSweet]; norm_num
  have hm2 : MeetsFilters (some "Candy") (some 1) (some 3) restockSweetDoc := by
    simp [MeetsFilters, restockSweetDoc]; norm_num
  rw [h]
  simp [h1, h3, List.filter, hm1, hm2]

/-! ## Unknown ids, delete and update -/

theorem findById_eq_none {st : Store} {id : Nat} (h : ∀ s ∈ st, s._id ≠ id) :
    findById st id = none := by
  unfold findById
  rw [List.find?_eq_none]
  intro s hs
  simpa using h s hs

/-- C18: for a well-formed id that no stored sweet has, `getSweet`, `updateSweet`,
`deleteSweet`, `purchaseSweet` and `restockSweet` each respond 404 with `success: false`
and the message "Sweet not found", and leave the collection unchanged. -/
theorem unknown_id_is_not_found (env : JsEnv) (req : Req) (st : Store) (id : Nat)
    (hid : req.id = some id) (hno : ∀ s ∈ st, s._id ≠ id) :
    getSweet req st
        = ({ status := 404, success := false, message := some "Sweet not found" }, st)
      ∧ updateSweet env req st
        = ({ status := 404, success := false, message := some "Sweet not found" }, st)
      ∧ deleteSweet req st
        = ({ status := 404, success := false, message := some "Sweet not found" }, st)
      ∧ purchaseSweet env req st
        = ({ status := 404, success := false, message := some "Sweet not found" }, st)
      ∧ restockSweet env req st
        = ({ status := 404, success := false, message := some "Sweet not found" }, st) := by
  have hf := findById_eq_none hno
  refine ⟨?_, ?_, ?_, ?_, ?_⟩
  · simp [getSweet, hid, hf, notFound]
  · simp [updateSweet, hid, hf, notFound]
  · simp [deleteSweet, hid, hf, notFound]
  · simp [purchaseSweet, hid, hf, notFound]
  · simp [restockSweet, hid, hf, notFound]

/-- Witness for C18: the id 5 in a collection that holds the ids 1 and 2. -/
theorem unknown_id_is_not_found_witness :
    purchaseSweet sampleEnv (quantityReq 5 (.num 1) none) [limitedSweet, restockSweetDoc]
      = ({ status := 404, success := false, message := some "Sweet not found" },
         [limitedSweet, restockSweetDoc]) :=
  (unknown_id_is_not_found sampleEnv (quantityReq 5 (.num 1) none)
    [limitedSweet, restockSweetDoc] 5 rfl
    (by simp [limitedSweet, restockSweetDoc])).2.2.2.1

theorem removeDoc_eq_filter {st : Store} (id : Nat) (h : IdsDistinct st) :
    removeDoc id st = st.filter (fun x => decide (x._id ≠ id)) := by
  induction st with
  | nil => rfl
  | cons a rest ih =>
    unfold IdsDistinct at h
    rw [List.pairwise_cons] at h
    unfold removeDoc
    by_cases ha : a._id = id
    · rw [if_pos ha, List.filter_cons_of_neg (by simpa using ha)]
      symm
      rw [List.filter_eq_self]
      intro x hx
      have := h.1 x hx
      rw [ha] at this
      simpa using fun hxe => this hxe.symm
    · rw [if_neg ha, List.filter_cons_of_pos (by simpa using ha), ih h.2]

/-- C19: for a stored sweet (in a collection whose ids are distinct), `deleteSweet` responds
200 with `success: true` and removes exactly that sweet: a following `getSweet` for the
same id responds 404, and the collection then holds the sweets with another id, unchanged
and in order; a request of an admin to the delete route gets exactly this answer. -/
theorem delete_removes_exactly_that_sweet (env : JsEnv) (req : Req) (st : Store) (id : Nat)
    (s : Sweet) (hid : req.id = some id) (hs : findById st id = some s)
    (hids : IdsDistinct st) :
    deleteSweet req st
        = ({ status := 200, success := true,
             message := some "Sweet deleted successfully" },
           st.filter (fun x => decide (x._id ≠ id)))
      ∧ getSweet req (deleteSweet req st).2
        = ({ status := 404, success := false, message := some "Sweet not found" },
           (deleteSweet req st).2)
      ∧ (∀ x, x ∈ (deleteSweet req st).2 ↔ x ∈ st ∧ x ≠ s)
      ∧ ∀ admin : User, req.credential = some admin → admin.role = "admin" →
          router env .delete req st = deleteSweet req st := by
  have hsid : s._id = id := findById_id hs
  have hdel : deleteSweet req st
      = ({ status := 200, success := true,
           message := some "Sweet deleted successfully" },
         st.filter (fun x => decide (x._id ≠ id))) := by
    simp [deleteSweet, hid, hs, hsid, removeDoc_eq_filter id hids]
  refine ⟨hdel, ?_, ?_, ?_⟩
  · rw [hdel]
    have hf : findById (st.filter (fun x => decide (x._id ≠ id))) id = none :=
      findById_eq_none (fun x hx => by simpa using (List.mem_filter.mp hx).2)
    simp only [getSweet, hid, hf, notFound]
  · intro x
    rw [hdel]
    simp only [List.mem_filter, decide_eq_true_eq]
    constructor
    · rintro ⟨hx, hne⟩
      exact ⟨hx, fun hxs => hne (hxs ▸ hsid)⟩
    · rintro ⟨hx, hne⟩
      refine ⟨hx, fun hxid => hne ?_⟩
      have hx' : x._id = s._id := by rw [hxid, hsid]
      by_contra hxs
      have hsm := findById_mem hs
      unfold IdsDistinct at hids
      have hsymm : Symmetric (fun a b : Sweet => a._id ≠ b._id) := fun a b h => Ne.symm h
      exact List.Pairwise.forall hsymm hids hx hsm hxs hx'
  · intro admin hc hr
    simp [router, routeChain, routeController, runChain, protect, authorize, hc, hr,
      deleteSweet]

/-- Witness for C19: deleting sweet 1 of two leaves sweet 2. -/
theorem delete_removes_exactly_that_sweet_witness :
    (deleteSweet { id := some 1 } [limitedSweet, restockSweetDoc]).1.status = 200
      ∧ (deleteSweet { id := some 1 } [limitedSweet, restockSweetDoc]).2
        = [restockSweetDoc] := by
  have h := delete_removes_exactly_that_sweet sampleEnv { id := some 1 }
    [limitedSweet, restockSweetDoc] 1 limitedSweet rfl (by simp [findById, limitedSweet])
    (by simp [IdsDistinct, limitedSweet, restockSweetDoc])
  refine ⟨by rw [h.1], ?_⟩
  rw [h.1]
  simp [List.filter, limitedSweet, restockSweetDoc]

/-- The outcome of `findByIdAndUpdate` for an update that supplies some of name, price and
description with valid values. -/
theorem findByIdAndUpdate_supplied (env : JsEnv) (st : Store) (id : Nat) (s : Sweet)
    (nm : Option String) (p : Option ℚ) (d : Option String)
    (hs : findById st id = some s)
    (hname : ∀ v, nm = some v →
      env.trim v ≠ "" ∧ (env.trim v = s.name ∨ ∀ o ∈ st, o.name ≠ env.trim v))
    (hprice : ∀ x, p = some x → 0 ≤ x) :
    findByIdAndUpdate env st id (optStr nm) .undefined (optNum p) .undefined (optStr d)
        .undefined
      = .ok (some (updatedDoc env s nm p d), replaceDoc (updatedDoc env s nm p d) st) := by
  have hcast : castUpdate env (optStr nm) .undefined (optNum p) .undefined (optStr d)
        .undefined
      = .ok { name := nm.map (fun v => some (env.trim v)), category := none,
              price := p.map some, quantity := none, description := d.map some,
              image := none } := by
    cases nm <;> cases p <;> cases d <;>
      simp [castUpdate, castNumberField, castStringField, castNumber, castString, optStr,
        optNum, toStr, bind, Except.bind, pure, Except.pure]
  have hvalid : validateUpdate
      { name := nm.map (fun v => some (env.trim v)), category := none,
        price := p.map some, quantity := none, description := d.map some,
        image := none } = .ok () := by
    cases hn : nm with
    | none =>
      cases hp : p with
      | none => simp [validateUpdate, validateField, bind, Except.bind]
      | some x =>
        have := hprice x hp
        simp [validateUpdate, validateField, validateNumber, bind, Except.bind, this]
    | some v =>
      have hv := (hname v hn).1
      cases hp : p with
      | none => simp [validateUpdate, validateField, validateName, bind, Except.bind, hv]
      | some x =>
        have := hprice x hp
        simp [validateUpdate, validateField, validateName, validateNumber, bind,
          Except.bind, hv, this]
  have hdoc : applyUpdate
      { name := nm.map (fun v => some (env.trim v)), category := none,
        price := p.map some, quantity := none, description := d.map some,
        image := none } s = updatedDoc env s nm p d := by
    cases nm <;> cases p <;> cases d <;> rfl
  have hdup : ¬ ((removeDoc id st).any (fun o => decide (o.name = (updatedDoc env s nm p d).name))
      = true ∧ (updatedDoc env s nm p d).name ≠ s.name) := by
    rintro ⟨hany, hne⟩
    cases hn : nm with
    | none =>
      subst hn
      exact hne rfl
    | some v =>
      subst hn
      rcases (hname v rfl).2 with h | h
      · exact hne h
      · simp only [List.any_eq_true, decide_eq_true_eq] at hany
        obtain ⟨o, ho, hon⟩ := hany
        exact h o (mem_removeDoc ho) hon
  unfold findByIdAndUpdate
  simp only [bind, Except.bind, hcast, hvalid, hs, hdoc]
  rw [if_neg hdup]
  rfl

/-- C20 (as amended): for a stored sweet and an admin update request that supplies some of
name (non-blank, and after trimming either the current name or a name no stored sweet
has), price (a number ≥ 0) and description (a string) and no other field, `updateSweet`
responds 200 with `success: true`; the returned data is the sweet as stored after the
update, carrying the supplied price and description and the trimmed supplied name, with
every field that was not supplied as before. -/
theorem update_supplied_fields (env : JsEnv) (req : Req) (st : Store) (id : Nat) (s : Sweet)
    (nm : Option String) (p : Option ℚ) (d : Option String)
    (hid : req.id = some id) (hs : findById st id = some s)
    (hbody : req.body = { name := optStr nm, price := optNum p, description := optStr d })
    (hname : ∀ v, nm = some v →
      env.trim v ≠ "" ∧ (env.trim v = s.name ∨ ∀ o ∈ st, o.name ≠ env.trim v))
    (hprice : ∀ x, p = some x → 0 ≤ x) :
    updateSweet env req st
        = ({ status := 200, success := true, data := .sweet (updatedDoc env s nm p d) },
           replaceDoc (updatedDoc env s nm p d) st)
      ∧ findById (updateSweet env req st).2 id = some (updatedDoc env s nm p d)
      ∧ ∀ admin : User, req.credential = some admin → admin.role = "admin" →
          router env .update req st = updateSweet env req st := by
  have hupd : updateSweet env req st
      = ({ status := 200, success := true, data := .sweet (updatedDoc env s nm p d) },
         replaceDoc (updatedDoc env s nm p d) st) := by
    simp [updateSweet, hid, hs, hbody,
      findByIdAndUpdate_supplied env st id s nm p d hs hname hprice]
  refine ⟨hupd, ?_, ?_⟩
  · rw [hupd]
    have hsid : s._id = id := findById_id hs
    have hdid : (updatedDoc env s nm p d)._id = id := hsid
    have := findById_replaceDoc st (updatedDoc env s nm p d) s (by rw [hdid]; exact hs)
    rw [hdid] at this
    exact this
  · intro admin hc hr
    simp [router, routeChain, routeController, runChain, protect, authorize, hc, hr,
      updateSweet]

/-- Witness for C20: the test "should update multiple fields". -/
theorem update_supplied_fields_witness :
    (updateSweet sampleEnv
        { id := some 1,
          body := { name := .str "Completely New Sweet", price := .num (599 / 100),
                    description := .str "New description" } }
        [limitedSweet]).1
      = { status := 200, success := true,
          data := .sweet { limitedSweet with
            name := "Completely New Sweet", price := 599 / 100,
            description := some "New description" } } := by
  have ht : sampleEnv.trim "Completely New Sweet" = "Completely New Sweet" := by decide
  have h := update_supplied_fields sampleEnv
    { id := some 1,
      body := { name := .str "Completely New Sweet", price := .num (599 / 100),
                description := .str "New description" } }
    [limitedSweet] 1 limitedSweet (some "Completely New Sweet") (some (599 / 100))
    (some "New description") rfl (by simp [findById, limitedSweet]) rfl
    (by
      intro v hv
      cases hv
      rw [ht]
      exact ⟨by decide, Or.inr (by simp [limitedSweet])⟩)
    (by
      intro x hx
      cases hx
      norm_num)
  rw [h.1]
  simp [updatedDoc, ht]

/-- C20, counterexample to the claim as stated: the update supplies the valid name
" Fudge "; the answer is 200, and the returned sweet carries the name "Fudge", not the
supplied value. -/
theorem update_does_not_echo_untrimmed_name :
    (updateSweet sampleEnv { id := some 1, body := { name := .str " Fudge " } }
        [limitedSweet]).1
        = { status := 200, success := true,
            data := .sweet { limitedSweet with name := "Fudge" } }
      ∧ ({ limitedSweet with name := "Fudge" } : Sweet).name ≠ " Fudge " := by
  have ht : sampleEnv.trim " Fudge " = "Fudge" := by decide
  refine ⟨?_, by decide⟩
  have h := findByIdAndUpdate_supplied sampleEnv [limitedSweet] 1 limitedSweet
    (some " Fudge ") none none (by simp [findById, limitedSweet])
    (by
      intro v hv
      cases hv
      rw [ht]
      exact ⟨by decide, Or.inr (by simp [limitedSweet])⟩)
    (by simp)
  have hf : findById [limitedSweet] 1 = some limitedSweet := by simp [findById, limitedSweet]
  simp only [optStr, optNum] at h
  simp [updateSweet, hf, h, updatedDoc, ht]

/-! ## Saving a new document -/

theorem validateName_ok {v : Option String} {x : String} (h : validateName v = .ok x) :
    v = some x ∧ x ≠ "" := by
  unfold validateName at h
  split at h
  · simp at h
  · split_ifs at h with hx
    simp only [Except.ok.injEq] at h
    subst h
    exact ⟨rfl, hx⟩

theorem validateCategory_ok {v : Option String} {x : String}
    (h : validateCategory v = .ok x) : v = some x ∧ x ∈ categoryEnum := by
  unfold validateCategory at h
  split at h
  · simp at h
  · split_ifs at h with h0 hx
    simp only [Except.ok.injEq] at h
    subst h
    exact ⟨rfl, hx⟩

/-- What a successful `Sweet.create` tells about its arguments and its result. -/
theorem createDoc_inv {env : JsEnv} {st st' : Store} {name category price quantity
    description image : JsVal} {createdBy now : Nat} {doc : Sweet}
    (h : createDoc env st name category price quantity description image createdBy now
      = .ok (doc, st')) :
    ∃ (nm c : String) (p q : ℚ),
      (castString env name).map env.trim = some nm ∧ nm ≠ ""
      ∧ castString env (if category = .undefined then .str "Other" else category) = some c
      ∧ c ∈ categoryEnum
      ∧ castNumber env price = some (some p) ∧ 0 ≤ p
      ∧ castNumber env (if quantity = .undefined then .num 0 else quantity) = some (some q)
      ∧ 0 ≤ q
      ∧ (∀ s ∈ st, s.name ≠ nm)
      ∧ doc = createdDoc env st nm c p q description image createdBy now
      ∧ st' = st ++ [doc] := by
  unfold createDoc at h
  split at h
  · simp at h
  · simp at h
  · next p q hp hq =>
    simp only [bind, Except.bind] at h
    split at h
    · simp at h
    · next nm hnm =>
      split at h
      · simp at h
      · next c hc =>
        split at h
        · simp at h
        · next x hx =>
          split at h
          · simp at h
          · next y hy =>
            split at h
            · simp at h
            · next hany =>
              simp only [Except.ok.injEq, Prod.mk.injEq] at h
              obtain ⟨hn1, hn2⟩ := validateName_ok hnm
              obtain ⟨hc1, hc2⟩ := validateCategory_ok hc
              obtain ⟨hx1, hx2⟩ := validateNumber_ok hx
              obtain ⟨hy1, hy2⟩ := validateNumber_ok hy
              simp only [List.any_eq_true, decide_eq_true_eq, not_exists, not_and] at hany
              refine ⟨nm, c, x, y, hn1, hn2, hc1, hc2, ?_, hx2, ?_, hy2, hany, ?_, ?_⟩
              · rw [hp, hx1]
              · rw [hq, hy1]
              · rw [← h.1]
                rfl
              · rw [← h.2, ← h.1]

/-- Either the new document is rejected or it is saved. -/
theorem except_error_of_not_ok {α : Type} (r : Except DbError α)
    (h : ∀ a, r ≠ .ok a) : ∃ e, r = .error e := by
  cases r with
  | error e => exact ⟨e, rfl⟩
  | ok a => exact absurd rfl (h a)

/-- C21: saving a new Sweet document is rejected when its name is missing, its price is
missing, its `createdBy` is missing, its price is negative, its quantity is negative, or
its category is a value outside the enum, whatever the other fields are; and it is
accepted, and appended to the collection, when its (trimmed) name is non-empty and not the
name of a stored sweet, its category is in the enum, `createdBy` is set, and price and
quantity are numbers ≥ 0 (0 included). -/
theorem save_checks_the_schema (env : JsEnv) (st : Store) (fields : SweetFields) (now : Nat) :
    ((fields.name = .undefined ∨ fields.price = .undefined ∨ fields.createdBy = none
        ∨ (∃ p, fields.price = .num p ∧ p < 0)
        ∨ (∃ q, fields.quantity = .num q ∧ q < 0)
        ∨ (∃ v, castString env fields.category = some v ∧ v ∉ categoryEnum)) →
      ∃ e, saveNewSweet env st fields now = .error e)
    ∧ (∀ (nm c : String) (p q : ℚ) (createdBy : Nat),
        fields.name = .str nm → env.trim nm ≠ "" → (∀ s ∈ st, s.name ≠ env.trim nm) →
        fields.category = .str c → c ∈ categoryEnum → fields.createdBy = some createdBy →
        fields.price = .num p → 0 ≤ p → fields.quantity = .num q → 0 ≤ q →
        saveNewSweet env st fields now
          = .ok (createdDoc env st (env.trim nm) c p q fields.description fields.image
                   createdBy now,
                 st ++ [createdDoc env st (env.trim nm) c p q fields.description
                   fields.image createdBy now])) := by
  constructor
  · intro hbad
    apply except_error_of_not_ok
    rintro ⟨doc, st'⟩ hok
    unfold saveNewSweet at hok
    split at hok
    · simp at hok
    · next createdBy hcb =>
      obtain ⟨nm, c, p, q, hnm, _, hc, hcmem, hp, hp0, hq, hq0, _, _, _⟩ := createDoc_inv hok
      rcases hbad with h | h | h | ⟨x, h, hx⟩ | ⟨x, h, hx⟩ | ⟨v, h, hv⟩
      · simp [h, castString] at hnm
      · simp [h, castNumber] at hp
      · simp [h] at hcb
      · rw [h] at hp
        simp only [castNumber, Option.some.injEq] at hp
        rw [hp] at hx
        exact absurd hp0 (not_le.mpr hx)
      · rw [h] at hq
        simp only [castNumber, reduceCtorEq, if_false, Option.some.injEq] at hq
        rw [hq] at hx
        exact absurd hq0 (not_le.mpr hx)
      · have hne : fields.category ≠ .undefined := by
          intro hu
          simp [hu, castString] at h
        rw [if_neg hne, h] at hc
        exact hv (Option.some.inj hc ▸ hcmem)
  · intro nm c p q createdBy hname hblank hfresh hcat hcmem hcb hprice hp hq hq0
    have hc0 := ne_empty_of_mem_categoryEnum hcmem
    have hany : ¬ (st.any (fun s => decide (s.name = env.trim nm)) = true) := by
      simpa using hfresh
    simp [saveNewSweet, hcb, hname, hcat, hprice, hq, createDoc, createdDoc, castNumber,
      castString, toStr, validateName, validateCategory, validateNumber, bind, Except.bind,
      hblank, hcmem, hc0, hp, hq0, hany]

/-- Witness for C21: a document without a price is rejected, and the document of the test
"should accept zero price" is saved. -/
theorem save_checks_the_schema_witness :
    (∃ e, saveNewSweet sampleEnv []
        { name := .str "Test Sweet", category := .str "Chocolate", quantity := .num 50,
          createdBy := some 3 } 9 = .error e)
    ∧ saveNewSweet sampleEnv []
        { name := .str "Free Sweet", category := .str "Candy", price := .num 0,
          quantity := .num 50, createdBy := some 3 } 9
      = .ok (createdDoc sampleEnv [] "Free Sweet" "Candy" 0 50 .undefined .undefined 3 9,
             [createdDoc sampleEnv [] "Free Sweet" "Candy" 0 50 .undefined .undefined 3 9]) := by
  have ht : sampleEnv.trim "Free Sweet" = "Free Sweet" := by decide
  refine ⟨(save_checks_the_schema sampleEnv [] _ 9).1 (Or.inr (Or.inl rfl)), ?_⟩
  have h := (save_checks_the_schema sampleEnv []
    { name := .str "Free Sweet", category := .str "Candy", price := .num 0,
      quantity := .num 50, createdBy := some 3 } 9).2 "Free Sweet" "Candy" 0 50 3 rfl
    (by rw [ht]; decide) (by simp) rfl (by simp [categoryEnum]) rfl rfl (by norm_num) rfl
    (by norm_num)
  rw [ht] at h
  exact h

/-- C22: the code at the input of the test "should fail without required category": the
schema default fills in the category, so the document is saved, with category "Other". -/
theorem save_without_category_is_accepted :
    saveNewSweet sampleEnv []
        { name := .str "Test Sweet", price := .num (499 / 100), quantity := .num 50,
          createdBy := some 3 } 9
      = .ok (createdDoc sampleEnv [] "Test Sweet" "Other" (499 / 100) 50 .undefined
               .undefined 3 9,
             [createdDoc sampleEnv [] "Test Sweet" "Other" (499 / 100) 50 .undefined
               .undefined 3 9]) := by
  have ht : sampleEnv.trim "Test Sweet" = "Test Sweet" := by decide
  have hp : (0 : ℚ) ≤ 499 / 100 := by norm_num
  simp [saveNewSweet, createDoc, createdDoc, castNumber, castString, toStr, validateName,
    validateCategory, validateNumber, bind, Except.bind, ht, hp, categoryEnum]

/-- C23: in every saved new Sweet document, the quantity is 0 when the quantity was omitted,
the description is the empty string when the description was omitted, and the image is the
default URL, which contains "placeholder", when the image was omitted; a supplied quantity
(a number), description or image (strings) is kept as given.  The saved document is the
one the collection then holds. -/
theorem saved_document_defaults (env : JsEnv) (st st' : Store) (fields : SweetFields)
    (now : Nat) (doc : Sweet) (q : Option ℚ) (d i : Option String)
    (hq : fields.quantity = optNum q) (hd : fields.description = optStr d)
    (hi : fields.image = optStr i)
    (h : saveNewSweet env st fields now = .ok (doc, st')) :
    doc.quantity = q.getD 0
      ∧ doc.description = some (d.getD "")
      ∧ doc.image = some (i.getD defaultImage)
      ∧ "placeholder".toList <:+: defaultImage.toList
      ∧ st' = st ++ [doc] := by
  unfold saveNewSweet at h
  split at h
  · simp at h
  · obtain ⟨nm, c, p, x, _, _, _, _, _, _, hx, _, _, hdoc, hst⟩ := createDoc_inv h
    refine ⟨?_, ?_, ?_, by decide, hst⟩
    · rw [hdoc]
      show x = q.getD 0
      rw [hq] at hx
      cases q with
      | none => simpa [optNum, castNumber] using hx.symm
      | some y => simpa [optNum, castNumber] using hx.symm
    · rw [hdoc, hd]
      cases d <;> simp [createdDoc, optStr, castString, toStr]
    · rw [hdoc, hi]
      cases i <;> simp [createdDoc, optStr, castString, toStr]

/-- Witness for C23: the document of the test "should default quantity to 0". -/
theorem saved_document_defaults_witness :
    (createdDoc sampleEnv [] "Default Quantity Sweet" "Candy" (499 / 100) 0 .undefined
        .undefined 3 9).quantity = 0
      ∧ (createdDoc sampleEnv [] "Default Quantity Sweet" "Candy" (499 / 100) 0 .undefined
        .undefined 3 9).description = some ""
      ∧ (createdDoc sampleEnv [] "Default Quantity Sweet" "Candy" (499 / 100) 0 .undefined
        .undefined 3 9).image = some defaultImage := by
  have ht : sampleEnv.trim "Default Quantity Sweet" = "Default Quantity Sweet" := by decide
  have hp : (0 : ℚ) ≤ 499 / 100 := by norm_num
  have hsave : saveNewSweet sampleEnv []
      { name := .str "Default Quantity Sweet", category := .str "Candy",
        price := .num (499 / 100), createdBy := some 3 } 9
      = .ok (createdDoc sampleEnv [] "Default Quantity Sweet" "Candy" (499 / 100) 0
               .undefined .undefined 3 9,
             [] ++ [createdDoc sampleEnv [] "Default Quantity Sweet" "Candy" (499 / 100) 0
               .undefined .undefined 3 9]) := by
    simp [saveNewSweet, createDoc, createdDoc, castNumber, castString, toStr, validateName,
      validateCategory, validateNumber, bind, Except.bind, ht, hp, categoryEnum]
  have h := saved_document_defaults sampleEnv [] _ _ 9 _ none none none rfl rfl rfl hsave
  exact ⟨h.1, h.2.1, h.2.2.1⟩

/-! ## Dashboard -/

theorem includes_toLowerCase (env : JsEnv) (term name : String) :
    includes (env.toLowerCase name) (env.toLowerCase term)
      = decide (containsLowerCase env.toLowerCase term name) := by
  rw [Bool.eq_iff_iff]
  simp [includes, containsLowerCase]

/-- C24: for every fetched list and every filter state (with a numeric price bound `r`),
`filterSweets` stores as `filteredSweets` exactly the fetched sweets, in their order, whose
name contains `searchTerm` ignoring case, that is, once both are put in lower case (when
`searchTerm` is non-empty), whose category is the selected one (when one is selected) and
whose price is at most `r`; the fetched list `sweets` and the filter state stay as they
are. -/
theorem filterSweets_selects (env : JsEnv) (d : Dashboard) (r : ℚ)
    (hr : toNumber env d.priceRange = some r) :
    (filterSweets env d).filteredSweets
        = d.sweets.filter (fun s => decide
            ((d.searchTerm = ""
                ∨ containsLowerCase env.toLowerCase d.searchTerm s.name)
              ∧ (d.category = "" ∨ s.category = d.category) ∧ s.price ≤ r))
      ∧ (filterSweets env d).filteredSweets.Sublist d.sweets
      ∧ (filterSweets env d).sweets = d.sweets
      ∧ (filterSweets env d).searchTerm = d.searchTerm
      ∧ (filterSweets env d).category = d.category
      ∧ (filterSweets env d).priceRange = d.priceRange := by
  have hsel : (filterSweets env d).filteredSweets
        = d.sweets.filter (fun s => decide
            ((d.searchTerm = ""
                ∨ containsLowerCase env.toLowerCase d.searchTerm s.name)
              ∧ (d.category = "" ∨ s.category = d.category) ∧ s.price ≤ r)) := by
    unfold filterSweets
    simp only [hr, numLe, includes_toLowerCase]
    by_cases ht : d.searchTerm = "" <;> by_cases hc : d.category = ""
    · simp [ht, hc]
    · simp only [ht, hc, ne_eq, not_true_eq_false, if_false, not_false_eq_true, if_true,
        List.filter_filter]
      apply List.filter_congr
      intro s _
      rw [Bool.eq_iff_iff]
      simp [hc, and_comm]
    · simp only [ht, hc, ne_eq, not_true_eq_false, if_false, not_false_eq_true, if_true,
        List.filter_filter]
      apply List.filter_congr
      intro s _
      rw [Bool.eq_iff_iff]
      simp [ht, and_comm]
    · simp only [ht, hc, ne_eq, not_true_eq_false, if_false, not_false_eq_true, if_true,
        List.filter_filter]
      apply List.filter_congr
      intro s _
      rw [Bool.eq_iff_iff]
      simp [ht, hc]
      tauto
  refine ⟨hsel, ?_, rfl, rfl, rfl, rfl⟩
  rw [hsel]
  exact List.filter_sublist _

/-- Witness for C24: the search term "REST" with the slider at "50" keeps the second of the
two test sweets. -/
theorem filterSweets_selects_witness :
    (filterSweets sampleEnv
        { sweets := [limitedSweet, restockSweetDoc], searchTerm := "REST",
          priceRange := .num 50 }).filteredSweets = [restockSweetDoc] := by
  have h := (filterSweets_selects sampleEnv
    { sweets := [limitedSweet, restockSweetDoc], searchTerm := "REST",
      priceRange := .num 50 } 50 rfl).1
  have h1 : ¬ containsLowerCase sampleEnv.toLowerCase "REST" limitedSweet.name := by
    decide
  have h2 : containsLowerCase sampleEnv.toLowerCase "REST" restockSweetDoc.name := by
    decide
  have h3 : restockSweetDoc.price ≤ 50 := by simp [restockSweetDoc]; norm_num
  rw [h]
  simp [List.filter, h1, h2, h3]

/-- C28: for a stored sweet whose quantity is a non-negative integer, `SweetCard` disables
the purchase button exactly when the request that `handlePurchase` sends (quantity 1) is
rejected by `purchaseSweet` with 400 and "Not enough stock available". -/
theorem purchase_button_agrees_with_precheck (env : JsEnv) (st : Store) (sweet : Sweet)
    (credential : Option User) (now : Nat) (n : ℕ)
    (hs : findById st sweet._id = some sweet) (hq : sweet.quantity = (n : ℚ)) :
    purchaseDisabled sweet = true
      ↔ purchaseSweet env (handlePurchase credential now sweet._id) st
        = ({ status := 400, success := false,
             message := some "Not enough stock available" }, st) := by
  have hpre : purchaseSweet env (handlePurchase credential now sweet._id) st
      = if sweet.quantity < 1 then
          ({ status := 400, success := false,
             message := some "Not enough stock available" }, st)
        else
          match saveQuantity env st sweet (.num (roundDouble (sweet.quantity - 1))) now with
          | .error e => (serverError e.message, st)
          | .ok (saved, st') =>
            ({ status := 200, success := true,
               message := some ("Successfully purchased " ++ env.numToStr 1 ++ " "
                 ++ saved.name ++ "(s)"),
               data := .sweet saved }, st') := by
    simp [purchaseSweet, handlePurchase, hs, jsOr, truthy, toNumber, numLt, jsSub, toStr]
  rw [hpre]
  unfold purchaseDisabled isOutOfStock
  rw [decide_eq_true_eq, hq]
  constructor
  · intro h0
    rw [if_pos (by rw [h0]; norm_num)]
  · intro h
    by_contra hn0
    have hn1 : 1 ≤ n := Nat.one_le_iff_ne_zero.mpr (fun h0 => hn0 (by rw [h0]; simp))
    have hge : ¬ ((n : ℚ) < 1) := by
      rw [not_lt]
      exact_mod_cast hn1
    rw [if_neg hge] at h
    split at h <;> simp [serverError] at h

/-- Witness for C28: a card for a sweet with quantity 0. -/
theorem purchase_button_agrees_with_precheck_witness :
    purchaseDisabled { limitedSweet with quantity := 0 } = true
      ∧ purchaseSweet sampleEnv (handlePurchase none 9 1) [{ limitedSweet with quantity := 0 }]
        = ({ status := 400, success := false,
             message := some "Not enough stock available" },
           [{ limitedSweet with quantity := 0 }]) := by
  have h := purchase_button_agrees_with_precheck sampleEnv
    [{ limitedSweet with quantity := 0 }] { limitedSweet with quantity := 0 } none 9 0
    (by simp [findById, limitedSweet]) (by simp)
  have hd : purchaseDisabled { limitedSweet with quantity := 0 } = true := by
    simp [purchaseDisabled, isOutOfStock]
  exact ⟨hd, h.mp hd⟩

/-- C29 (as amended): in the initial filter state of the Dashboard (empty search term, no
category, price slider at 4000) `filterSweets` shows exactly the fetched sweets whose price
is at most 4000, hence every fetched sweet when no price exceeds 4000. -/
theorem initial_filter_shows_prices_up_to_4000 (env : JsEnv) (fetched : List Sweet) :
    (filterSweets env { sweets := fetched }).filteredSweets
        = fetched.filter (fun s => decide (s.price ≤ 4000))
      ∧ ((∀ s ∈ fetched, s.price ≤ 4000) →
          (filterSweets env { sweets := fetched }).filteredSweets = fetched) := by
  have h : (filterSweets env { sweets := fetched }).filteredSweets
      = fetched.filter (fun s => decide (s.price ≤ 4000)) := by
    simp [filterSweets, toNumber, numLe]
  refine ⟨h, fun hall => ?_⟩
  rw [h, List.filter_eq_self]
  intro s hs
  simpa using hall s hs

/-- Witness for C29: the two test sweets cost less than 4000 and are both shown. -/
theorem initial_filter_shows_prices_up_to_4000_witness :
    (filterSweets sampleEnv { sweets := [limitedSweet, restockSweetDoc] }).filteredSweets
      = [limitedSweet, restockSweetDoc] :=
  (initial_filter_shows_prices_up_to_4000 sampleEnv [limitedSweet, restockSweetDoc]).2
    (by
      intro s hs
      simp only [List.mem_cons, List.mem_singleton, List.not_mem_nil, or_false] at hs
      rcases hs with rfl | rfl
      · simp [limitedSweet]; norm_num
      · simp [restockSweetDoc]; norm_num)

/-- C29, counterexample to the claim as stated: a sweet with price 5000 satisfies the
schema, so the backend can hold it, and the Dashboard in its initial filter state does
not show it. -/
theorem initial_filter_hides_pricey_sweet :
    SchemaOk { limitedSweet with price := 5000 }
      ∧ (filterSweets sampleEnv
          { sweets := [{ limitedSweet with price := 5000 }] }).filteredSweets = [] := by
  constructor
  · simp [SchemaOk, limitedSweet, categoryEnum]
  · have h : ¬ ((5000 : ℚ) ≤ 4000) := by norm_num
    simp [filterSweets, toNumber, numLe, List.filter, h]

/-! ## Default quantity, integer quantities and the frame of purchase and restock -/

/-- C25 (as amended): a purchase or restock request without a `quantity` field gets the
same answer and leaves the same collection as the request with `quantity: 1`; on a stored
sweet that satisfies the schema, the purchase removes one unit when the stock `q` is at
least 1 and `q - 1` is a double, and is refused with 400 when the stock is below 1, and
the restock adds one unit when `q + 1` is a double. -/
theorem missing_quantity_is_one (env : JsEnv) (req : Req) (st : Store)
    (h : req.body.quantity = .undefined) :
    purchaseSweet env req st
        = purchaseSweet env { req with body := { req.body with quantity := .num 1 } } st
      ∧ restockSweet env req st
        = restockSweet env { req with body := { req.body with quantity := .num 1 } } st
      ∧ ∀ (id : Nat) (s : Sweet), req.id = some id → findById st id = some s → SchemaOk s →
          (1 ≤ s.quantity → IsDouble (s.quantity - 1) →
            (purchaseSweet env req st).1.status = 200
              ∧ (purchaseSweet env req st).2
                = replaceDoc { s with quantity := s.quantity - 1, updatedAt := req.now } st)
          ∧ (s.quantity < 1 →
            purchaseSweet env req st
              = ({ status := 400, success := false,
                   message := some "Not enough stock available" }, st))
          ∧ (IsDouble (s.quantity + 1) →
            (restockSweet env req st).1.status = 200
              ∧ (restockSweet env req st).2
                = replaceDoc { s with quantity := s.quantity + 1, updatedAt := req.now } st) := by
  have hb : jsOr req.body.quantity (.num 1) = .num 1 := by simp [h, jsOr, truthy]
  refine ⟨?_, ?_, ?_⟩
  · simp [purchaseSweet, h, jsOr, truthy]
  · simp [restockSweet, h, jsOr, truthy]
  · intro id s hid hs hv
    obtain ⟨a, b, c, d⟩ := hv
    refine ⟨fun h1 hdbl => ?_, fun h0 => ?_, fun hdbl => ?_⟩
    · have hrep := hdbl.1
      have hok : SchemaOk { s with quantity := roundDouble (s.quantity - 1) } := by
        rw [hrep]
        exact ⟨a, b, c, by show 0 ≤ s.quantity - 1; linarith⟩
      have hnlt : ¬ s.quantity < 1 := not_lt.mpr h1
      rw [purchaseSweet_num env st req id s 1 hid hs hb hnlt hok, hrep]
      exact ⟨rfl, rfl⟩
    · simp [purchaseSweet, hid, hs, h, jsOr, truthy, toNumber, numLt, h0]
    · have hrep := hdbl.1
      have hok : SchemaOk { s with quantity := roundDouble (s.quantity + 1) } := by
        rw [hrep]
        exact ⟨a, b, c, by show 0 ≤ s.quantity + 1; linarith⟩
      rw [restockSweet_num env st req id s 1 hid hs hb (by norm_num) hok, hrep]
      exact ⟨rfl, rfl⟩

/-- Witness for C25: a purchase without a body on a sweet with 5 units leaves 4. -/
theorem missing_quantity_is_one_witness :
    (purchaseSweet sampleEnv { id := some 1, now := 9 } [limitedSweet]).1.status = 200
      ∧ (purchaseSweet sampleEnv { id := some 1, now := 9 } [limitedSweet]).2
        = [{ limitedSweet with quantity := 4, updatedAt := 9 }] := by
  have h0 : IsDouble (limitedSweet.quantity - 1) := by
    have h := roundDouble_intCast 4 (by norm_num)
    have e : limitedSweet.quantity - 1 = ((4 : ℤ) : ℚ) := by
      simp [limitedSweet]; norm_num
    rw [e]
    exact ⟨h, by norm_num⟩
  have h := ((missing_quantity_is_one sampleEnv { id := some 1, now := 9 } [limitedSweet]
    rfl).2.2 1 limitedSweet rfl (by simp [findById, limitedSweet])
    (by simp [SchemaOk, limitedSweet, categoryEnum]; norm_num)).1
    (by simp [limitedSweet]) h0
  refine ⟨h.1, ?_⟩
  rw [h.2]
  simp [replaceDoc, limitedSweet]
  norm_num

/-- C25, counterexample to the claim as stated: on a sweet with quantity 9007199254740992
(an integer and a double) an admin restock request without a `quantity` field is answered
200, and the stored quantity stays 9007199254740992: no unit is added, the sum is rounded
to a double. -/
theorem restock_default_rounds_large_stock :
    IsDouble 9007199254740992
      ∧ SchemaOk { restockSweetDoc with quantity := 9007199254740992 }
      ∧ (restockSweet sampleEnv { id := some 2, now := 9, credential := some ⟨3, "admin"⟩ }
          [{ restockSweetDoc with quantity := 9007199254740992 }]).1.status = 200
      ∧ (restockSweet sampleEnv { id := some 2, now := 9, credential := some ⟨3, "admin"⟩ }
          [{ restockSweetDoc with quantity := 9007199254740992 }]).2
        = [{ restockSweetDoc with quantity := 9007199254740992, updatedAt := 9 }]
      ∧ (9007199254740992 : ℚ) ≠ 9007199254740992 + 1 := by
  have hv : SchemaOk { restockSweetDoc with quantity := 9007199254740992 } := by
    simp [SchemaOk, restockSweetDoc, categoryEnum]; norm_num
  have hr : roundDouble ((9007199254740992 : ℚ) + 1) = 9007199254740992 := by
    rw [show (9007199254740992 : ℚ) + 1 = 9007199254740993 by norm_num]
    exact roundDouble_above
  have hok : SchemaOk { ({ restockSweetDoc with quantity := 9007199254740992 } : Sweet) with
      quantity := roundDouble ((9007199254740992 : ℚ) + 1) } := by
    rw [hr]
    simp [SchemaOk, restockSweetDoc, categoryEnum]; norm_num
  have hp := restockSweet_num sampleEnv
    [{ restockSweetDoc with quantity := 9007199254740992 }]
    { id := some 2, now := 9, credential := some ⟨3, "admin"⟩ } 2
    { restockSweetDoc with quantity := 9007199254740992 } 1 rfl
    (by simp [findById, restockSweetDoc]) (by simp [jsOr, truthy]) (by norm_num) hok
  have hd : IsDouble 9007199254740992 := by
    have h := roundDouble_intCast 9007199254740992 (by norm_num)
    exact ⟨by simpa using h, by norm_num⟩
  refine ⟨hd, hv, by rw [hp], ?_, by norm_num⟩
  rw [hp]
  simp only [hr]
  simp [replaceDoc, restockSweetDoc]

/-- C26: the code on a collection with integer quantities: an update with `quantity: 2.5`
is answered 200 and stores the quantity 5/2, and a purchase with `quantity: 0.5` is
answered 200 and stores the quantity 9/2; neither is an integer. -/
theorem fractional_quantity_is_stored (env : JsEnv) :
    limitedSweet.quantity.den = 1
      ∧ (updateSweet env { id := some 1, body := { quantity := .num (5 / 2) } }
          [limitedSweet]).1.status = 200
      ∧ (updateSweet env { id := some 1, body := { quantity := .num (5 / 2) } }
          [limitedSweet]).2 = [{ limitedSweet with quantity := 5 / 2 }]
      ∧ ¬ ((5 / 2 : ℚ).den = 1)
      ∧ (purchaseSweet env (quantityReq 1 (.num (1 / 2)) none) [limitedSweet]).1.status = 200
      ∧ (purchaseSweet env (quantityReq 1 (.num (1 / 2)) none) [limitedSweet]).2
        = [{ limitedSweet with quantity := 9 / 2, updatedAt := 9 }]
      ∧ ¬ ((9 / 2 : ℚ).den = 1) := by
  have hf : findById [limitedSweet] 1 = some limitedSweet := by simp [findById, limitedSweet]
  have h52 : (0 : ℚ) ≤ 5 / 2 := by norm_num
  have hid : limitedSweet._id = 1 := rfl
  have hupd : findByIdAndUpdate env [limitedSweet] 1 .undefined .undefined .undefined
      (.num (5 / 2)) .undefined .undefined
      = .ok (some { limitedSweet with quantity := 5 / 2 },
             [{ limitedSweet with quantity := 5 / 2 }]) := by
    simp [findByIdAndUpdate, castUpdate, castNumberField, castStringField, castNumber,
      validateUpdate, validateField, validateNumber, bind, Except.bind, pure, Except.pure,
      hf, h52, applyUpdate, removeDoc, replaceDoc, hid]
  have h92 : roundDouble (limitedSweet.quantity - 1 / 2) = 9 / 2 := by
    have h := roundDouble_dyadic 9 (-1) (by norm_num) (by norm_num)
    have e : ((9 : ℤ) : ℚ) * 2 ^ (-1 : ℤ) = 9 / 2 := by norm_num
    have e2 : limitedSweet.quantity - 1 / 2 = 9 / 2 := by
      simp [limitedSweet]; norm_num
    rw [e] at h
    rw [e2]; exact h
  have hok : SchemaOk
      { limitedSweet with quantity := roundDouble (limitedSweet.quantity - 1 / 2) } := by
    rw [h92]
    simp [SchemaOk, limitedSweet, categoryEnum]; norm_num
  have hp := purchaseSweet_num env [limitedSweet] (quantityReq 1 (.num (1 / 2)) none) 1
    limitedSweet (1 / 2) rfl hf (jsOr_num (by norm_num)) (by simp [limitedSweet]; norm_num)
    hok
  refine ⟨by decide, ?_, ?_, by norm_num, ?_, ?_, by norm_num⟩
  · simp [updateSweet, hf, hupd]
  · simp [updateSweet, hf, hupd]
  · rw [hp]
  · rw [hp, h92]
    simp [replaceDoc, quantityReq, hid]

theorem replaceDoc_split {st : Store} {id : Nat} {s : Sweet} (doc : Sweet)
    (hs : findById st id = some s) (hdoc : doc._id = id) :
    ∃ before after : List Sweet,
      st = before ++ s :: after ∧ replaceDoc doc st = before ++ doc :: after := by
  induction st with
  | nil => simp [findById] at hs
  | cons a rest ih =>
    by_cases ha : a._id = id
    · have hsa : s = a := by
        simpa [findById, List.find?_cons, ha] using hs.symm
      refine ⟨[], rest, by rw [hsa]; rfl, ?_⟩
      unfold replaceDoc
      rw [if_pos (by rw [ha, hdoc])]
      rfl
    · have hs2 : findById rest id = some s := by
        simpa [findById, List.find?_cons, ha] using hs
      obtain ⟨before, after, h1, h2⟩ := ih hs2
      refine ⟨a :: before, after, by rw [h1]; rfl, ?_⟩
      unfold replaceDoc
      rw [if_neg (by rw [hdoc]; exact ha), h2]
      rfl

theorem saveQuantity_frame {env : JsEnv} {st st' : Store} {sweet saved : Sweet} {v : JsVal}
    {now id : Nat} (hs : findById st id = some sweet)
    (h : saveQuantity env st sweet v now = .ok (saved, st')) :
    ∃ before after : List Sweet,
      st = before ++ sweet :: after ∧ st' = before ++ saved :: after
        ∧ saved = { sweet with quantity := saved.quantity, updatedAt := now } := by
  obtain ⟨x, _, _, hsaved, hst'⟩ := saveQuantity_ok h
  have hid : saved._id = id := by
    have hsid := findById_id hs
    rw [hsaved]
    exact hsid
  obtain ⟨before, after, h1, h2⟩ := replaceDoc_split saved hs hid
  refine ⟨before, after, h1, by rw [hst', h2], ?_⟩
  rw [hsaved]

/-- C27: a purchase or restock that is answered 200 replaces the addressed sweet in place by
the returned document, which differs from it in `quantity` and `updatedAt` only (name,
category, price, description, image and `createdBy` are the same), and leaves every other
stored sweet as it was; with any other answer (400 and 404 among them) the collection is
unchanged. -/
theorem purchase_restock_frame (env : JsEnv) (req : Req) (st : Store) :
    QuantityFrame req st (purchaseSweet env req st)
      ∧ QuantityFrame req st (restockSweet env req st) := by
  constructor
  · unfold QuantityFrame purchaseSweet
    split
    · simp [serverError]
    · next id hid =>
      split
      · simp [notFound]
      · next sweet hs =>
        simp only
        split_ifs
        · simp
        · split
          · simp [serverError]
          · next saved st' h =>
            obtain ⟨before, after, h1, h2, h3⟩ := saveQuantity_frame hs h
            refine ⟨fun _ => ⟨sweet, saved, before, after, ?_, h1, h2, rfl, h3⟩, by simp⟩
            rw [findById_id hs]
            exact hid
  · unfold QuantityFrame restockSweet
    split
    · simp [serverError]
    · next id hid =>
      split
      · simp [notFound]
      · next sweet hs =>
        simp only
        split_ifs
        · simp
        · split
          · simp [serverError]
          · next saved st' h =>
            obtain ⟨before, after, h1, h2, h3⟩ := saveQuantity_frame hs h
            refine ⟨fun _ => ⟨sweet, saved, before, after, ?_, h1, h2, rfl, h3⟩, by simp⟩
            rw [findById_id hs]
            exact hid

/-- Witness for C27: a purchase of 2 units and a restock of 2 units of the test sweet. -/
theorem purchase_restock_frame_witness :
    QuantityFrame (quantityReq 1 (.num 2) none) [limitedSweet]
        (purchaseSweet sampleEnv (quantityReq 1 (.num 2) none) [limitedSweet])
      ∧ QuantityFrame (quantityReq 1 (.num 2) none) [limitedSweet]
        (restockSweet sampleEnv (quantityReq 1 (.num 2) none) [limitedSweet]) :=
  purchase_restock_frame sampleEnv (quantityReq 1 (.num 2) none) [limitedSweet]

/-! ## Seed data -/

/-- Inserting seed records that satisfy the schema, with names that are trimmed, pairwise
distinct and not in the collection, succeeds and appends one sweet per record. -/
theorem insertMany_seed (env : JsEnv) (adminId now : Nat) (recs : List SeedSweet) :
    ∀ st : Store,
      (∀ r ∈ recs, env.trim r.name = r.name ∧ r.name ≠ "" ∧ r.category ∈ categoryEnum
        ∧ 0 ≤ r.price ∧ 0 ≤ r.quantity) →
      (recs.map (fun r => r.name)).Nodup →
      (∀ r ∈ recs, ∀ s ∈ st, s.name ≠ r.name) →
      (∀ s ∈ st, SchemaOk s) →
      ∃ st', insertMany env now st (recs.map (withCreator adminId)) = .ok st'
        ∧ st'.map (fun s => s.name) = st.map (fun s => s.name) ++ recs.map (fun r => r.name)
        ∧ ∀ s ∈ st', SchemaOk s := by
  induction recs with
  | nil =>
    intro st _ _ _ hst
    exact ⟨st, rfl, by simp, hst⟩
  | cons r rest ih =>
    intro st hvalid hnodup hfresh hst
    obtain ⟨ht, hne, hc, hp, hq⟩ := hvalid r (List.mem_cons_self _ _)
    rw [List.map_cons, List.nodup_cons] at hnodup
    have hsave : saveNewSweet env st (withCreator adminId r) now
        = .ok (createdDoc env st r.name r.category r.price r.quantity (.str r.description)
                 (.str r.image) adminId now,
               st ++ [createdDoc env st r.name r.category r.price r.quantity
                 (.str r.description) (.str r.image) adminId now]) := by
      unfold saveNewSweet withCreator
      exact createDoc_fresh env st r.name r.category r.price r.quantity _ _ adminId now ht
        hne hc hp hq (fun s hs => hfresh r (List.mem_cons_self _ _) s hs)
    have hdocok : SchemaOk (createdDoc env st r.name r.category r.price r.quantity
        (.str r.description) (.str r.image) adminId now) := ⟨hne, hc, hp, hq⟩
    obtain ⟨st', h1, h2, h3⟩ := ih
      (st ++ [createdDoc env st r.name r.category r.price r.quantity (.str r.description)
        (.str r.image) adminId now])
      (fun x hx => hvalid x (List.mem_cons_of_mem _ hx)) hnodup.2
      (fun x hx s hs => by
        rcases List.mem_append.mp hs with hs | hs
        · exact hfresh x (List.mem_cons_of_mem _ hx) s hs
        · rw [List.mem_singleton] at hs
          rw [hs]
          intro hname
          apply hnodup.1
          rw [List.mem_map]
          exact ⟨x, hx, hname.symm⟩)
      (fun s hs => by
        rcases List.mem_append.mp hs with hs | hs
        · exact hst s hs
        · rw [List.mem_singleton] at hs
          rw [hs]
          exact hdocok)
    refine ⟨st', ?_, ?_, h3⟩
    · rw [List.map_cons]
      unfold insertMany
      rw [hsave]
      exact h1
    · rw [h2]
      simp [createdDoc]

theorem sweets_valid :
    ∀ r ∈ sweets, r.name ≠ "" ∧ r.category ∈ categoryEnum ∧ 0 ≤ r.price ∧ 0 ≤ r.quantity
      ∧ r.quantity.den = 1 := by
  decide

theorem sweets_names_nodup : (sweets.map (fun r => r.name)).Nodup := by
  decide

/-- C30: the seed list has 20 records; each has a non-empty name, a category of the enum, a
price ≥ 0 and a quantity that is an integer ≥ 0, and no two share a name; hence, with
`createdBy` attached, inserting the whole list into the emptied collection succeeds and
stores one valid sweet per record. -/
theorem seed_records_are_valid :
    sweets.length = 20
      ∧ (∀ r ∈ sweets, r.name ≠ "" ∧ r.category ∈ categoryEnum ∧ 0 ≤ r.price
          ∧ 0 ≤ r.quantity ∧ r.quantity.den = 1)
      ∧ (sweets.map (fun r => r.name)).Nodup
      ∧ ∀ (env : JsEnv) (adminId now : Nat), (∀ r ∈ sweets, env.trim r.name = r.name) →
          ∃ st, seedDatabase env adminId now = .ok st
            ∧ st.map (fun s => s.name) = sweets.map (fun r => r.name)
            ∧ st.length = 20
            ∧ ∀ s ∈ st, SchemaOk s := by
  refine ⟨rfl, sweets_valid, sweets_names_nodup, ?_⟩
  intro env adminId now htrim
  obtain ⟨st, h1, h2, h3⟩ := insertMany_seed env adminId now sweets []
    (fun r hr => ⟨htrim r hr, (sweets_valid r hr).1, (sweets_valid r hr).2.1,
      (sweets_valid r hr).2.2.1, (sweets_valid r hr).2.2.2.1⟩)
    sweets_names_nodup (fun _ _ s hs => absurd hs (List.not_mem_nil s))
    (fun s hs => absurd hs (List.not_mem_nil s))
  refine ⟨st, h1, by simpa using h2, ?_, h3⟩
  have hlen := congrArg List.length h2
  simpa using hlen

/-- Witness for C30: seeding with the sample environment. -/
theorem seed_records_are_valid_witness :
    ∃ st, seedDatabase sampleEnv 3 9 = .ok st ∧ st.length = 20 := by
  obtain ⟨st, h1, _, h3, _⟩ := seed_records_are_valid.2.2.2 sampleEnv 3 9 (by decide)
  exact ⟨st, h1, h3⟩

end SweetApp
